import Mathlib

/-
Verification of the workflow orchestration engine of IBMxORCHESTRATE:
a shallow embedding of `src/adk/agents/base_agent.py` and
`src/adk/workflows/orchestration_engine.py`, followed by theorems about it.

Modelling conventions:
* Python `Dict[str, Any]` values become the inductive `Val`; dictionaries
  become association lists with Python-dict semantics (one entry per key,
  update replaces in place, otherwise appends at the end).
* Wall-clock time is not modelled; the worker-supplied `execute` reports an
  abstract duration which the executor stores into `execution_time`
  (the source stores the wall-clock elapsed time there and makes no other
  use of time).  `asyncio.sleep` backoff delays are modelled by returning
  the total slept amount.
* Exceptions become `Except String`; `asyncio.TimeoutError` raised by the
  worker-supplied coroutine is a distinguished outcome.
* The worker-supplied `execute` coroutine (subclass-defined in the source)
  is modelled as a function of the task and of the number of results already
  recorded in the worker's history (so stateful test doubles such as
  "fails twice then succeeds" are expressible); `validate_input` is a
  function of the task.
* `asyncio.gather` over a wave is determinised: the steps of a wave run
  left to right in the wave's order, every step of the wave seeing the
  `results` dictionary as it was when the wave was dispatched (in the
  source, `results` is only mutated after the `gather` returns).
-/

/-- Python `Any` values as far as the engine's data flow needs them. -/
inductive Val where
  | str : String → Val
  | num : Int → Val
  | dict : List (String × Val) → Val

/-- A Python `Dict[str, Val]` as an association list (unique keys). -/
abbrev Ctx := List (String × Val)

/-- Python-dict read: the entry for `k`, if any. -/
def dictGet {α : Type} (l : List (String × α)) (k : String) : Option α :=
  (l.find? (fun p => p.1 = k)).map Prod.snd

/-- Python-dict write: replace the entry for `k` in place, else append. -/
def dictSet {α : Type} : List (String × α) → String → α → List (String × α)
  | [], k, v => [(k, v)]
  | (k', v') :: rest, k, v =>
      if k' = k then (k, v) :: rest else (k', v') :: dictSet rest k v

/-- Status enum `AgentStatus` from `src/adk/agents/base_agent.py`. -/
inductive AgentStatus where
  | idle | running | success | failed | timeout
deriving DecidableEq, Repr

/-- Task record `AgentTask` from `src/adk/agents/base_agent.py`
(`created_at` and `priority` are carried by the source but never read by
the engine; `priority` is kept, the timestamp is dropped). -/
structure AgentTask where
  task_id : String
  task_type : String
  parameters : Ctx := []
  context : Ctx := []
  deadline : Option ℚ := none
  priority : Int := 5

/-- Result record `AgentResult` from `src/adk/agents/base_agent.py`
(`metadata` and `timestamp` are never read by the engine and are dropped). -/
structure AgentResult where
  agent_id : String
  task_id : String
  status : AgentStatus
  result : Ctx := []
  error : Option String := none
  execution_time : ℚ := 0
  confidence : ℚ := 0

instance : Inhabited AgentResult :=
  ⟨{ agent_id := "", task_id := "", status := AgentStatus.idle }⟩

/-- Outcome of one call to the worker-supplied `execute` coroutine:
it returns a result after some duration, raises `asyncio.TimeoutError`,
or raises some other exception carrying a message. -/
inductive ExecOutcome where
  | ok : AgentResult → ℚ → ExecOutcome
  | exn : String → ExecOutcome
  | timedOut : ExecOutcome

/-- A worker (`BaseAgent` subclass): its id plus the subclass-supplied
`validate_input` and `execute` behaviours.  `execute` additionally takes
the length of the worker's history at call time (see module comment). -/
structure Worker where
  agent_id : String
  validate_input : AgentTask → Bool
  execute : AgentTask → Nat → ExecOutcome

/-- The mutable per-worker state of a `BaseAgent`: `self.status` and
`self.task_history`. -/
structure WorkerState where
  status : AgentStatus := AgentStatus.idle
  task_history : List AgentResult := []

/-- Executor `BaseAgent.process_task` (base_agent.py lines 111-175).

Sets status to Running, validates (a false validation raises
`ValueError("Invalid task input for {agent_id}")`, caught by the generic
handler), runs `execute`, stamps `execution_time`, sets the status of the
taken branch, appends the attempt's result to the history, and in the
`finally` block resets a still-Running status to Idle.  No deadline is
imposed on `execute` anywhere: `task.deadline` is never read, and the
TimedOut branch fires only when `execute` itself raises
`asyncio.TimeoutError`. -/
def process_task (w : Worker) (s : WorkerState) (task : AgentTask) :
    AgentResult × WorkerState :=
  -- self.status = AgentStatus.RUNNING (transient; see the finally below)
  let branch : AgentResult × AgentStatus :=
    if w.validate_input task = false then
      -- raise ValueError(...) caught by `except Exception`
      ({ agent_id := w.agent_id, task_id := task.task_id,
         status := AgentStatus.failed,
         error := some ("Invalid task input for " ++ w.agent_id),
         execution_time := 0, confidence := 0 }, AgentStatus.failed)
    else
      match w.execute task s.task_history.length with
      | ExecOutcome.ok r dur =>
          ({ r with execution_time := dur }, AgentStatus.success)
      | ExecOutcome.exn msg =>
          ({ agent_id := w.agent_id, task_id := task.task_id,
             status := AgentStatus.failed, error := some msg,
             execution_time := 0, confidence := 0 }, AgentStatus.failed)
      | ExecOutcome.timedOut =>
          ({ agent_id := w.agent_id, task_id := task.task_id,
             status := AgentStatus.timeout,
             error := some "Task execution timeout",
             execution_time := 0, confidence := 0 }, AgentStatus.timeout)
  let res := branch.1
  let st := branch.2
  -- finally: if self.status == RUNNING: self.status = IDLE
  let stFinal := if st = AgentStatus.running then AgentStatus.idle else st
  (res, { status := stFinal, task_history := s.task_history ++ [res] })

/-- Step record `WorkflowStep` from `src/adk/workflows/orchestration_engine.py`
(`max_retries` is kept as a natural number; the engine only compares the
retry counter against it). -/
structure WorkflowStep where
  step_id : String
  agent_id : String
  action : String
  parameters : Ctx := []
  depends_on : List String := []
  optional : Bool := false
  retry_on_failure : Bool := true
  max_retries : Nat := 3

/-- Workflow record `Workflow` from orchestration_engine.py. -/
structure Workflow where
  workflow_id : String
  workflow_name : String
  description : String
  steps : List WorkflowStep
  parallel_execution : Bool := true
  timeout : Nat := 300

/-- Outcome record `OrchestrationResult` from orchestration_engine.py
(`execution_time` and `timestamp` are wall-clock data and are dropped). -/
structure OrchestrationResult where
  workflow_id : String
  status : String
  agent_results : List (String × AgentResult) := []
  overall_confidence : ℚ := 0
  errors : List String := []

/-- The orchestrator's `results` dictionary: agent id to result. -/
abbrev ResultsMap := List (String × AgentResult)

/-- Registry map `AgentOrchestrator.agents`. -/
abbrev Registry := List (String × Worker)

/-- The per-worker mutable states of all registered agents, threaded
explicitly (in the source each `BaseAgent` object holds its own). -/
abbrev WStates := List (String × WorkerState)

/-- Fetch a worker's state (registered agents start Idle with empty
history, `BaseAgent.__init__`). -/
def getWS (ws : WStates) (aid : String) : WorkerState :=
  (dictGet ws aid).getD {}

/-- Store back a worker's state. -/
def setWS (ws : WStates) (aid : String) (s : WorkerState) : WStates :=
  dictSet ws aid s

/-- State of `AgentOrchestrator`: its registries (`self.agents`, `self.workflows`). -/
structure AgentOrchestrator where
  agents : Registry := []
  workflows : List (String × Workflow) := []

/-- Registration `AgentOrchestrator.register_agent` (lines 69-77). -/
def register_agent (o : AgentOrchestrator) (w : Worker) : AgentOrchestrator :=
  { o with agents := dictSet o.agents w.agent_id w }

/-- Registration `AgentOrchestrator.register_workflow` (lines 79-87). -/
def register_workflow (o : AgentOrchestrator) (wf : Workflow) : AgentOrchestrator :=
  { o with workflows := dictSet o.workflows wf.workflow_id wf }

/-- Lines 277-283 of `_execute_step`: merge the shared context with, for each
declared dependency, an entry `"{agent_id}_result"` holding the payload of
every previous result whose `task_id` equals that dependency's step id. -/
def buildTaskContext (step : WorkflowStep) (context : Ctx)
    (previous_results : ResultsMap) : Ctx :=
  step.depends_on.foldl
    (fun ctx dep =>
      previous_results.foldl
        (fun c p =>
          if p.2.task_id = dep then
            dictSet c (p.1 ++ "_result") (Val.dict p.2.result)
          else c)
        ctx)
    context

/-- Lines 285-290: the `AgentTask` built for a step. -/
def mkStepTask (step : WorkflowStep) (context : Ctx)
    (previous_results : ResultsMap) : AgentTask :=
  { task_id := step.step_id, task_type := step.action,
    parameters := step.parameters,
    context := buildTaskContext step context previous_results }

/-- The retry loop of `_execute_step` (lines 292-311): `while retries <=
max_retries`, with the counter currently at `retries` and
`budget = max_retries - retries` re-attempts still allowed (so the
source's continuation test `retries + 1 <= max_retries` is `budget ≠ 0`;
the recursion is structural on `budget`).  Returns the final attempt's
result, the worker's new state, and the total backoff slept
(`asyncio.sleep(2 ** retries)` with the incremented counter, before each
re-attempt). -/
def retryLoopGo (w : Worker) (task : AgentTask) (step : WorkflowStep) :
    Nat → Nat → WorkerState → AgentResult × WorkerState × ℚ
  | retries, budget, s =>
    let pr := process_task w s task
    if pr.1.status = AgentStatus.success then (pr.1, pr.2, 0)
    else if step.retry_on_failure = false then (pr.1, pr.2, 0)
    else
      match budget with
      | 0 => (pr.1, pr.2, 0)
      | b + 1 =>
          let out := retryLoopGo w task step (retries + 1) b pr.2
          (out.1, out.2.1, 2 ^ (retries + 1) + out.2.2)

/-- The retry loop entered with `retries = 0` (line 293). -/
def retryLoop (w : Worker) (task : AgentTask) (s : WorkerState)
    (step : WorkflowStep) : AgentResult × WorkerState × ℚ :=
  retryLoopGo w task step 0 step.max_retries s

/-- Step runner `AgentOrchestrator._execute_step` (lines 256-311): look up the agent —
a missing agent raises `ValueError("Agent {id} not found")` — build the
task with dependency context, then run the retry loop from `retries = 0`. -/
def execute_step (reg : Registry) (step : WorkflowStep) (context : Ctx)
    (previous_results : ResultsMap) (ws : WStates) :
    Except String AgentResult × WStates × ℚ :=
  match dictGet reg step.agent_id with
  | none => (Except.error ("Agent " ++ step.agent_id ++ " not found"), ws, 0)
  | some w =>
      let task := mkStepTask step context previous_results
      let out := retryLoop w task (getWS ws step.agent_id) step
      (Except.ok out.1, setWS ws step.agent_id out.2.1, out.2.2)

/-- Lines 197-201: the ready wave — steps not yet completed whose
dependencies are all in the completed set. -/
def readySteps (steps : List WorkflowStep) (completed : List String) :
    List WorkflowStep :=
  steps.filter (fun step =>
    (!(completed.contains step.step_id)) &&
      step.depends_on.all (fun dep => completed.contains dep))

/-- The wave's `asyncio.gather` (lines 207-212), determinised left-to-right;
every step of the wave sees the `results` snapshot from the wave's start
(in the source, `results` is only mutated after the gather returns). -/
def runWave (reg : Registry) (context : Ctx) (snapshot : ResultsMap) :
    List WorkflowStep → WStates →
    List (WorkflowStep × Except String AgentResult) × WStates
  | [], ws => ([], ws)
  | step :: rest, ws =>
      let out := execute_step reg step context snapshot ws
      let tail := runWave reg context snapshot rest out.2.1
      ((step, out.1) :: tail.1, tail.2)

/-- Lines 214-224: walk `zip(ready_steps, step_results)` in order; an
exception from a non-optional step is re-raised immediately (entries after
it are not recorded), an optional exception is skipped (the step never
becomes completed), a normal result — whatever its status — is recorded
under the step's agent id and the step is marked completed. -/
def processWave : List (WorkflowStep × Except String AgentResult) →
    ResultsMap → List String → Except String (ResultsMap × List String)
  | [], results, completed => Except.ok (results, completed)
  | (step, Except.error e) :: rest, results, completed =>
      if step.optional then processWave rest results completed
      else Except.error e
  | (step, Except.ok r) :: rest, results, completed =>
      processWave rest (dictSet results step.agent_id r)
        (completed ++ [step.step_id])

/-- The `while len(completed_steps) < len(workflow.steps)` loop of
`_execute_parallel` (lines 195-225), driven by fuel.  `execute_parallel`
supplies fuel `steps.length + 1`, which covers every terminating run of the
source loop (each non-breaking iteration completes at least one step); a
run of the source that never terminates is cut off at fuel 0. -/
def parallelLoop (reg : Registry) (steps : List WorkflowStep) (context : Ctx) :
    Nat → List String → ResultsMap → WStates →
    Except String ResultsMap × WStates
  | 0, _, results, ws => (Except.ok results, ws)
  | fuel + 1, completed, results, ws =>
      if steps.length ≤ completed.length then (Except.ok results, ws)
      else
        let ready := readySteps steps completed
        if ready.isEmpty then (Except.ok results, ws)  -- line 203-204: break
        else
          let wave := runWave reg context results ready ws
          match processWave wave.1 results completed with
          | Except.error e => (Except.error e, wave.2)
          | Except.ok (results', completed') =>
              parallelLoop reg steps context fuel completed' results' wave.2

/-- Parallel mode `AgentOrchestrator._execute_parallel` (lines 171-226). -/
def execute_parallel (reg : Registry) (workflow : Workflow) (context : Ctx)
    (ws : WStates) : Except String ResultsMap × WStates :=
  parallelLoop reg workflow.steps context (workflow.steps.length + 1) [] [] ws

/-- Python f-string rendering of an `Optional[str]` (`None` prints as
"None"). -/
def optErrStr : Option String → String
  | some e => e
  | none => "None"

/-- The body of `_execute_sequential` (lines 243-254): execute each step in
declaration order against the results so far; record the result; a FAILED
result of a non-optional step raises RuntimeError. -/
def sequentialLoop (reg : Registry) (context : Ctx) :
    List WorkflowStep → ResultsMap → WStates →
    Except String ResultsMap × WStates
  | [], results, ws => (Except.ok results, ws)
  | step :: rest, results, ws =>
      match execute_step reg step context results ws with
      | (Except.error e, ws', _) => (Except.error e, ws')
      | (Except.ok r, ws', _) =>
          let results' := dictSet results step.agent_id r
          if r.status = AgentStatus.failed ∧ step.optional = false then
            (Except.error ("Required step " ++ step.step_id ++ " failed: " ++
              optErrStr r.error), ws')
          else sequentialLoop reg context rest results' ws'

/-- Sequential mode `AgentOrchestrator._execute_sequential` (lines 228-254). -/
def execute_sequential (reg : Registry) (workflow : Workflow) (context : Ctx)
    (ws : WStates) : Except String ResultsMap × WStates :=
  sequentialLoop reg context workflow.steps [] ws

/-- Lines 127-134: mean of `confidence` over results with status Success,
0 when none. -/
def overallConfidence (results : ResultsMap) : ℚ :=
  let confidences := (results.map Prod.snd).filterMap
    (fun r => if r.status = AgentStatus.success then some r.confidence else none)
  if confidences.isEmpty then 0 else confidences.sum / confidences.length

/-- Lines 136-141: `"{agent_id}: {error}"` for every result whose error is
truthy (present and non-empty). -/
def collectErrors (results : ResultsMap) : List String :=
  (results.map Prod.snd).filterMap
    (fun r => match r.error with
      | some e => if e = "" then none else some (r.agent_id ++ ": " ++ e)
      | none => none)

/-- Lines 116-125: the parallel/sequential dispatch inside the `try`. -/
def runSteps (orch : AgentOrchestrator) (workflow : Workflow) (context : Ctx)
    (ws : WStates) : Except String ResultsMap × WStates :=
  if workflow.parallel_execution then
    execute_parallel orch.agents workflow context ws
  else
    execute_sequential orch.agents workflow context ws

/-- Entry point `AgentOrchestrator.execute_workflow` (lines 89-169).  An unknown
workflow id raises `ValueError` before the `try` (uncaught).  A normal
completion classifies: "success" when `errors` is empty else
"partial_success".  Any exception from step execution is caught: status
"failed", `agent_results` left at its initial `{}`, `errors = [str(e)]`,
confidence 0. -/
def execute_workflow (orch : AgentOrchestrator) (workflow_id : String)
    (context : Ctx) (ws : WStates) :
    Except String (OrchestrationResult × WStates) :=
  match dictGet orch.workflows workflow_id with
  | none => Except.error ("Workflow " ++ workflow_id ++ " not found")
  | some workflow =>
      match runSteps orch workflow context ws with
      | (Except.ok agent_results, ws') =>
          Except.ok
            ({ workflow_id := workflow_id,
               status := if (collectErrors agent_results).isEmpty then
                   "success" else "partial_success",
               agent_results := agent_results,
               overall_confidence := overallConfidence agent_results,
               errors := collectErrors agent_results }, ws')
      | (Except.error e, ws') =>
          Except.ok
            ({ workflow_id := workflow_id, status := "failed",
               agent_results := [], overall_confidence := 0,
               errors := [e] }, ws')

/-- The task built at lines 340-345 for `coordinate_agents`; `now` stands
for the `datetime.now().timestamp()` string. -/
def coordinateTask (aid : String) (shared_goal : String) (context : Ctx)
    (now : String) : AgentTask :=
  { task_id := aid ++ "_" ++ now, task_type := "coordinate",
    parameters := [("goal", Val.str shared_goal)], context := context }

/-- Lines 333-350: build a `process_task` call for each REGISTERED id, in
order, skipping unregistered ids (line 337); the gathered calls are
determinised left-to-right. -/
def runCoordinate (reg : Registry) (shared_goal : String) (context : Ctx)
    (now : String) : List String → WStates → List AgentResult × WStates
  | [], ws => ([], ws)
  | aid :: rest, ws =>
      match dictGet reg aid with
      | none => runCoordinate reg shared_goal context now rest ws
      | some w =>
          let pr := process_task w (getWS ws aid)
            (coordinateTask aid shared_goal context now)
          let tail := runCoordinate reg shared_goal context now rest
            (setWS ws aid pr.2)
          (pr.1 :: tail.1, tail.2)

/-- Fan-out `AgentOrchestrator.coordinate_agents` (lines 313-360): run the tasks of
the registered ids, then zip the ORIGINAL `agent_ids` list against the
filtered results list (line 354) to build the returned map.  `process_task`
never raises, so the `isinstance(result, Exception)` branch never fires;
`zip` truncates at the shorter list. -/
def coordinate_agents (reg : Registry) (agent_ids : List String)
    (shared_goal : String) (context : Ctx) (now : String) (ws : WStates) :
    ResultsMap × WStates :=
  let out := runCoordinate reg shared_goal context now agent_ids ws
  ((agent_ids.zip out.1).foldl (fun m p => dictSet m p.1 p.2) [], out.2)

/-! ### Concrete workers, steps and workflows used as test inputs -/

/-- A worker whose `execute` returns a Success result only after an
(abstract) duration of 100 time units. -/
def slowWorker : Worker :=
  { agent_id := "slow",
    validate_input := fun _ => true,
    execute := fun t _ => ExecOutcome.ok
      { agent_id := "slow", task_id := t.task_id,
        status := AgentStatus.success, confidence := 1 } 100 }

/-- A task carrying a deadline of 1 time unit. -/
def deadlineTask : AgentTask :=
  { task_id := "t1", task_type := "work", deadline := some 1 }

/-- A worker that raises a transient exception on its first two attempts
(history still shorter than 2) and then returns `r` after duration 1. -/
def flakyWorker (r : AgentResult) : Worker :=
  { agent_id := "a",
    validate_input := fun _ => true,
    execute := fun _ n =>
      if n < 2 then ExecOutcome.exn "transient" else ExecOutcome.ok r 1 }

/-- A step with `retry_on_failure = true` and `max_retries = 2`. -/
def stepR : WorkflowStep :=
  { step_id := "s1", agent_id := "a", action := "act",
    retry_on_failure := true, max_retries := 2 }

/-- A worker whose `validate_input` always rejects; its `execute` would
succeed if it were ever called. -/
def alwaysInvalidWorker : Worker :=
  { agent_id := "v",
    validate_input := fun _ => false,
    execute := fun t _ => ExecOutcome.ok
      { agent_id := "v", task_id := t.task_id,
        status := AgentStatus.success, confidence := 1 } 1 }

/-- A step for the validation-failure runs: retries allowed, one retry. -/
def stepV : WorkflowStep :=
  { step_id := "sV", agent_id := "v", action := "act",
    retry_on_failure := true, max_retries := 1 }

/-- A worker that always raises `msg`. -/
def failWorker (aid : String) (msg : String) : Worker :=
  { agent_id := aid,
    validate_input := fun _ => true,
    execute := fun _ _ => ExecOutcome.exn msg }

/-- A worker that always succeeds with confidence `conf` after duration 1. -/
def okWorker (aid : String) (conf : ℚ) : Worker :=
  { agent_id := aid,
    validate_input := fun _ => true,
    execute := fun t _ => ExecOutcome.ok
      { agent_id := aid, task_id := t.task_id,
        status := AgentStatus.success, confidence := conf } 1 }

/-- A worker that succeeds and echoes the task's context as its payload. -/
def echoWorker (aid : String) : Worker :=
  { agent_id := aid,
    validate_input := fun _ => true,
    execute := fun t _ => ExecOutcome.ok
      { agent_id := aid, task_id := t.task_id,
        status := AgentStatus.success, result := t.context,
        confidence := 1 } 1 }

/-- A worker that succeeds with payload `p`. -/
def payloadWorker (aid : String) (p : Ctx) : Worker :=
  { agent_id := aid,
    validate_input := fun _ => true,
    execute := fun t _ => ExecOutcome.ok
      { agent_id := aid, task_id := t.task_id,
        status := AgentStatus.success, result := p, confidence := 1 } 1 }

/-- Required step bound to agent "a", no retries on failure. -/
def stepA : WorkflowStep :=
  { step_id := "sA", agent_id := "a", action := "act",
    retry_on_failure := false }

/-- Step bound to agent "b", depending on `stepA`. -/
def stepB : WorkflowStep :=
  { step_id := "sB", agent_id := "b", action := "act",
    depends_on := ["sA"] }

/-- Single-step workflow whose only step's worker always fails
(`retry_on_failure = false`), in parallel mode. -/
def wfC1 : Workflow :=
  { workflow_id := "w1", workflow_name := "w1", description := "",
    steps := [stepA], parallel_execution := true }

/-- Orchestrator for the C1 run: agent "a" always raises "boom". -/
def orchC1 : AgentOrchestrator :=
  { agents := [("a", failWorker "a" "boom")], workflows := [("w1", wfC1)] }

/-- The failed result agent "a" produces in the C1/C2 runs. -/
def rFailBoom (tid : String) : AgentResult :=
  { agent_id := "a", task_id := tid, status := AgentStatus.failed,
    error := some "boom", execution_time := 0, confidence := 0 }

/-- Two-step workflow: required failing step `stepA`, then `stepB`
depending on it, in parallel mode. -/
def wfC2 : Workflow :=
  { workflow_id := "w2", workflow_name := "w2", description := "",
    steps := [stepA, stepB], parallel_execution := true }

/-- Orchestrator for the C2 run: "a" always raises, "b" succeeds. -/
def orchC2 : AgentOrchestrator :=
  { agents := [("a", failWorker "a" "boom"), ("b", okWorker "b" 1)],
    workflows := [("w2", wfC2)] }

/-- A step depending on a step id that exists nowhere in the workflow. -/
def stepM : WorkflowStep :=
  { step_id := "sM", agent_id := "m", action := "act",
    depends_on := ["missing"] }

/-- Workflow whose single step has an unresolvable dependency. -/
def wfC3 : Workflow :=
  { workflow_id := "w3", workflow_name := "w3", description := "",
    steps := [stepM], parallel_execution := true }

/-- Orchestrator for the C3 run (agent "m" is even registered). -/
def orchC3 : AgentOrchestrator :=
  { agents := [("m", okWorker "m" 1)], workflows := [("w3", wfC3)] }

/-- A→B workflow used for context propagation: step "sA" on agent "a"
(payload `p`), step "sB" on agent "b" (echoes its task context). -/
def stepA7 : WorkflowStep :=
  { step_id := "sA", agent_id := "a", action := "act" }

/-- The dependent step of the context-propagation workflow. -/
def stepB7 : WorkflowStep :=
  { step_id := "sB", agent_id := "b", action := "act",
    depends_on := ["sA"] }

/-- The context-propagation workflow (parallel mode). -/
def wfC7 : Workflow :=
  { workflow_id := "w7", workflow_name := "w7", description := "",
    steps := [stepA7, stepB7], parallel_execution := true }

/-- Registry for the context-propagation run, `p` = payload of "a". -/
def regC7 (p : Ctx) : Registry :=
  [("a", payloadWorker "a" p), ("b", echoWorker "b")]

/-- Registry with only agent "a" registered (for `coordinate_agents`). -/
def regC9 : Registry := [("a", okWorker "a" 1)]

/-- The result worker "a" produces for the coordinate task at `now = "0"`. -/
def rCoordA : AgentResult :=
  { agent_id := "a", task_id := "a_0", status := AgentStatus.success,
    confidence := 1, execution_time := 1 }

/-- A worker on agent id "x" whose confidence depends on which step asked:
1/5 for step "sB", 4/5 otherwise.  Always succeeds on the first attempt. -/
def pickyWorker : Worker :=
  { agent_id := "x",
    validate_input := fun _ => true,
    execute := fun t _ => ExecOutcome.ok
      { agent_id := "x", task_id := t.task_id,
        status := AgentStatus.success,
        confidence := if t.task_id = "sB" then 1/5 else 4/5 } 1 }

/-- Steps of the mode-equivalence counterexample: "sA" on agent "a";
"sB" on agent "x" depending on "sA"; "sC" also on agent "x", independent.
The declaration order respects the dependencies and the graph is acyclic,
but two steps share agent id "x". -/
def stepsC10 : List WorkflowStep :=
  [ { step_id := "sA", agent_id := "a", action := "act" },
    { step_id := "sB", agent_id := "x", action := "act",
      depends_on := ["sA"] },
    { step_id := "sC", agent_id := "x", action := "act" } ]

/-- The counterexample workflow in parallel mode. -/
def wfC10par : Workflow :=
  { workflow_id := "wp", workflow_name := "wp", description := "",
    steps := stepsC10, parallel_execution := true }

/-- The counterexample workflow in sequential mode. -/
def wfC10seq : Workflow :=
  { workflow_id := "wq", workflow_name := "wq", description := "",
    steps := stepsC10, parallel_execution := false }

/-- Registry of the mode-equivalence counterexample. -/
def regC10 : Registry := [("a", okWorker "a" 1), ("x", pickyWorker)]

/-! ### Definitions for the mode-equivalence analysis -/

/-- Spec-side rendering of "the step list order respects its dependencies":
every step's `depends_on` refers only to step ids declared earlier
(in particular the dependency graph is acyclic). -/
def depsRespectOrder : List String → List WorkflowStep → Prop
  | _, [] => True
  | seen, s :: rest =>
      (∀ d ∈ s.depends_on, d ∈ seen) ∧ depsRespectOrder (s.step_id :: seen) rest

/-- Spec-side rendering of "every step succeeds on its first attempt": the
step's agent is registered, its validation always passes, and every call to
its `execute` returns a Success result that echoes the task's id. -/
def goodStep (reg : Registry) (s : WorkflowStep) : Prop :=
  ∃ w, dictGet reg s.agent_id = some w ∧
    (∀ task, w.validate_input task = true) ∧
    (∀ task n, ∃ r dur, w.execute task n = ExecOutcome.ok r dur ∧
       r.status = AgentStatus.success ∧ r.task_id = task.task_id)

/-- Proof-side characterization: the Result `_execute_step` records for a
step whose first attempt succeeds, as a function of the previous results
visible when its Task is built (the worker's history length taken from the
initial states `ws₀`; `default` is never reached under `goodStep`). -/
def stepOutput (reg : Registry) (ws₀ : WStates) (ctx : Ctx)
    (s : WorkflowStep) (prev : ResultsMap) : AgentResult :=
  match dictGet reg s.agent_id with
  | some w =>
      match w.execute (mkStepTask s ctx prev)
          (getWS ws₀ s.agent_id).task_history.length with
      | ExecOutcome.ok r dur => { r with execution_time := dur }
      | _ => default
  | none => default

/-- The canonical association list of results for a list of steps executed
in declaration order, each step against the accumulated canonical results
of the steps before it. -/
def canonAux (reg : Registry) (ws₀ : WStates) (ctx : Ctx) :
    List WorkflowStep → ResultsMap → ResultsMap
  | [], acc => acc
  | s :: rest, acc =>
      canonAux reg ws₀ ctx rest
        (acc ++ [(s.agent_id, stepOutput reg ws₀ ctx s acc)])

/-- The canonical Result of one step of `L`: its worker's response to the
Task built from the canonical results of the steps declared before it. -/
def canonVal (reg : Registry) (ws₀ : WStates) (ctx : Ctx)
    (L : List WorkflowStep) (s : WorkflowStep) : AgentResult :=
  stepOutput reg ws₀ ctx s
    (canonAux reg ws₀ ctx
      (L.takeWhile (fun t => decide (t.step_id ≠ s.step_id))) [])

/-- Orchestrator holding the mode-equivalence counterexample workflow in
both modes. -/
def orchC10 : AgentOrchestrator :=
  { agents := regC10,
    workflows := [("wp", wfC10par), ("wq", wfC10seq)] }

/-! ### Worker Executor: basic lemmas -/

/-- Normal-return branch of `process_task`: the worker's result comes back
with `execution_time` stamped, the status is set to SUCCESS (whatever the
result's own status says) and the result is appended to the history. -/
theorem process_task_ok (w : Worker) (s : WorkerState) (task : AgentTask)
    (r : AgentResult) (dur : ℚ)
    (hv : w.validate_input task = true)
    (he : w.execute task s.task_history.length = ExecOutcome.ok r dur) :
    process_task w s task =
      ({ r with execution_time := dur },
       { status := AgentStatus.success,
         task_history := s.task_history ++ [{ r with execution_time := dur }] }) := by
  unfold process_task
  simp [hv, he]

/-- Exception branch of `process_task`. -/
theorem process_task_exn (w : Worker) (s : WorkerState) (task : AgentTask)
    (msg : String)
    (hv : w.validate_input task = true)
    (he : w.execute task s.task_history.length = ExecOutcome.exn msg) :
    process_task w s task =
      ({ agent_id := w.agent_id, task_id := task.task_id,
         status := AgentStatus.failed, error := some msg,
         execution_time := 0, confidence := 0 },
       { status := AgentStatus.failed,
         task_history := s.task_history ++
           [{ agent_id := w.agent_id, task_id := task.task_id,
              status := AgentStatus.failed, error := some msg,
              execution_time := 0, confidence := 0 }] }) := by
  unfold process_task
  simp [hv, he]

/-- Timeout branch of `process_task`. -/
theorem process_task_timedOut (w : Worker) (s : WorkerState) (task : AgentTask)
    (hv : w.validate_input task = true)
    (he : w.execute task s.task_history.length = ExecOutcome.timedOut) :
    process_task w s task =
      ({ agent_id := w.agent_id, task_id := task.task_id,
         status := AgentStatus.timeout, error := some "Task execution timeout",
         execution_time := 0, confidence := 0 },
       { status := AgentStatus.timeout,
         task_history := s.task_history ++
           [{ agent_id := w.agent_id, task_id := task.task_id,
              status := AgentStatus.timeout, error := some "Task execution timeout",
              execution_time := 0, confidence := 0 }] }) := by
  unfold process_task
  simp [hv, he]

/-- Rejected-validation branch of `process_task`. -/
theorem process_task_invalid (w : Worker) (s : WorkerState) (task : AgentTask)
    (hv : w.validate_input task = false) :
    process_task w s task =
      ({ agent_id := w.agent_id, task_id := task.task_id,
         status := AgentStatus.failed,
         error := some ("Invalid task input for " ++ w.agent_id),
         execution_time := 0, confidence := 0 },
       { status := AgentStatus.failed,
         task_history := s.task_history ++
           [{ agent_id := w.agent_id, task_id := task.task_id,
              status := AgentStatus.failed,
              error := some ("Invalid task input for " ++ w.agent_id),
              execution_time := 0, confidence := 0 }] }) := by
  unfold process_task
  simp [hv]

/-- Every call to `process_task` grows the worker's history by exactly one
recorded attempt. -/
theorem process_task_history_length (w : Worker) (s : WorkerState)
    (task : AgentTask) :
    (process_task w s task).2.task_history.length = s.task_history.length + 1 := by
  unfold process_task
  by_cases hv : w.validate_input task = false
  · simp [hv]
  · simp [hv]

/-- C6 counterexample: after a perfectly normal successful `process_task`
call the worker's status is SUCCESS, not Idle — the `finally` block only
resets a status that is still RUNNING, and no branch leaves it RUNNING, so
the claimed restore-to-Idle never happens. -/
theorem process_task_restores_idle_cex :
    (process_task slowWorker {} deadlineTask).2.status = AgentStatus.success ∧
    (process_task slowWorker {} deadlineTask).2.status ≠ AgentStatus.idle := by
  constructor
  · rfl
  · decide

/-- C6 amended: after every call to `process_task` the worker's status is
the terminal status of the branch taken (SUCCESS, FAILED or TIMEOUT) —
never RUNNING, but also never restored to Idle. -/
theorem process_task_terminal_status (w : Worker) (s : WorkerState)
    (task : AgentTask) :
    ((process_task w s task).2.status = AgentStatus.success ∨
     (process_task w s task).2.status = AgentStatus.failed ∨
     (process_task w s task).2.status = AgentStatus.timeout) ∧
    (process_task w s task).2.status ≠ AgentStatus.running ∧
    (process_task w s task).2.status ≠ AgentStatus.idle := by
  unfold process_task
  by_cases hv : w.validate_input task = false
  · simp [hv]
  · simp [hv]
    cases w.execute task s.task_history.length <;> simp

/-- C4 counterexample: `slowWorker`'s execution takes 100 time units while
the task's deadline is 1, yet `process_task` returns the worker's Success
result — no deadline is enforced and nothing is abandoned. -/
theorem process_task_deadline_cex :
    slowWorker.execute deadlineTask 0 =
      ExecOutcome.ok
        { agent_id := "slow", task_id := "t1",
          status := AgentStatus.success, confidence := 1 } 100 ∧
    deadlineTask.deadline = some 1 ∧ (1 : ℚ) < 100 ∧
    (process_task slowWorker {} deadlineTask).1.status = AgentStatus.success ∧
    (process_task slowWorker {} deadlineTask).1.status ≠ AgentStatus.timeout ∧
    (process_task slowWorker {} deadlineTask).1.error ≠ some "execution timeout" := by
  refine ⟨rfl, rfl, by norm_num, rfl, by decide, ?_⟩
  intro h
  exact Option.noConfusion h

/-- C4 amended: `process_task` derives and enforces no deadline at all —
`task.deadline` is never consulted.  When `validate_input` passes and the
worker's `execute` returns normally, its result is returned whatever the
duration was; a TimedOut result (confidence 0, error "Task execution
timeout") is produced exactly when `execute` itself raises
`asyncio.TimeoutError`. -/
theorem process_task_no_deadline (w : Worker) (s : WorkerState)
    (task : AgentTask) :
    (∀ r dur, w.validate_input task = true →
       w.execute task s.task_history.length = ExecOutcome.ok r dur →
       (process_task w s task).1 = { r with execution_time := dur }) ∧
    (w.validate_input task = true →
     w.execute task s.task_history.length = ExecOutcome.timedOut →
     (process_task w s task).1 =
       { agent_id := w.agent_id, task_id := task.task_id,
         status := AgentStatus.timeout,
         error := some "Task execution timeout",
         execution_time := 0, confidence := 0 }) := by
  constructor
  · intro r dur hv he
    rw [process_task_ok w s task r dur hv he]
  · intro hv he
    rw [process_task_timedOut w s task hv he]

/-- Witness for the amended C4 theorem at a concrete input. -/
theorem process_task_no_deadline_witness :
    (process_task slowWorker {} deadlineTask).1 =
      { agent_id := "slow", task_id := "t1", status := AgentStatus.success,
        confidence := 1, execution_time := 100 } :=
  (process_task_no_deadline slowWorker {} deadlineTask).1
    { agent_id := "slow", task_id := "t1",
      status := AgentStatus.success, confidence := 1 } 100 rfl rfl

/-! ### Retry policy -/

/-- The retry loop exits after the current attempt when it succeeds. -/
theorem retryLoopGo_exit_success (w : Worker) (task : AgentTask)
    (step : WorkflowStep) (retries budget : Nat) (s : WorkerState)
    (h1 : (process_task w s task).1.status = AgentStatus.success) :
    retryLoopGo w task step retries budget s =
      ((process_task w s task).1, (process_task w s task).2, 0) := by
  rw [retryLoopGo.eq_def]
  simp [h1]

/-- The retry loop exits after a failed attempt when retrying is off. -/
theorem retryLoopGo_exit_noretry (w : Worker) (task : AgentTask)
    (step : WorkflowStep) (retries budget : Nat) (s : WorkerState)
    (h1 : (process_task w s task).1.status ≠ AgentStatus.success)
    (h2 : step.retry_on_failure = false) :
    retryLoopGo w task step retries budget s =
      ((process_task w s task).1, (process_task w s task).2, 0) := by
  rw [retryLoopGo.eq_def]
  simp [h1, h2]

/-- The retry loop exits after a failed attempt when the budget is spent
(`retries + 1 > max_retries` in the source). -/
theorem retryLoopGo_exit_spent (w : Worker) (task : AgentTask)
    (step : WorkflowStep) (retries : Nat) (s : WorkerState)
    (h1 : (process_task w s task).1.status ≠ AgentStatus.success) :
    retryLoopGo w task step retries 0 s =
      ((process_task w s task).1, (process_task w s task).2, 0) := by
  rw [retryLoopGo]
  by_cases h2 : step.retry_on_failure = false <;> simp [h1, h2]

/-- After a failed attempt with retrying on and budget left, the loop
sleeps `2 ^ (retries + 1)` and re-enters with the incremented counter. -/
theorem retryLoopGo_recurse (w : Worker) (task : AgentTask)
    (step : WorkflowStep) (retries b : Nat) (s : WorkerState)
    (h1 : (process_task w s task).1.status ≠ AgentStatus.success)
    (h2 : step.retry_on_failure = true) :
    retryLoopGo w task step retries (b + 1) s =
      ((retryLoopGo w task step (retries + 1) b (process_task w s task).2).1,
       (retryLoopGo w task step (retries + 1) b (process_task w s task).2).2.1,
       2 ^ (retries + 1) +
         (retryLoopGo w task step (retries + 1) b (process_task w s task).2).2.2) := by
  conv_lhs => rw [retryLoopGo]
  simp [h1, h2]

/-- One run of the retry loop makes at most `budget + 1` attempts, each
appending one record to the worker's history. -/
theorem retryLoopGo_history_le (w : Worker) (task : AgentTask)
    (step : WorkflowStep) :
    ∀ (budget retries : Nat) (s : WorkerState),
    (retryLoopGo w task step retries budget s).2.1.task_history.length ≤
      s.task_history.length + budget + 1 := by
  intro budget
  induction budget with
  | zero =>
      intro retries s
      by_cases h1 : (process_task w s task).1.status = AgentStatus.success
      · rw [retryLoopGo_exit_success w task step _ _ s h1]
        simp [process_task_history_length]
      · rw [retryLoopGo_exit_spent w task step _ s h1]
        simp [process_task_history_length]
  | succ b ih =>
      intro retries s
      by_cases h1 : (process_task w s task).1.status = AgentStatus.success
      · rw [retryLoopGo_exit_success w task step _ _ s h1]
        simp [process_task_history_length]
      · by_cases h2 : step.retry_on_failure = false
        · rw [retryLoopGo_exit_noretry w task step _ _ s h1 h2]
          simp [process_task_history_length]
        · rw [retryLoopGo_recurse w task step _ b s h1 (by
            cases hb : step.retry_on_failure with
            | true => rfl
            | false => exact absurd hb h2)]
          dsimp only
          have hrec := ih (retries + 1) (process_task w s task).2
          have hone := process_task_history_length w s task
          omega

/-- When every attempt fails and retrying is on, the loop makes exactly
`budget + 1` attempts. -/
theorem retryLoopGo_all_fail_history (w : Worker) (task : AgentTask)
    (step : WorkflowStep)
    (hfail : ∀ s : WorkerState, (process_task w s task).1.status ≠ AgentStatus.success)
    (hrof : step.retry_on_failure = true) :
    ∀ (budget retries : Nat) (s : WorkerState),
    (retryLoopGo w task step retries budget s).2.1.task_history.length =
      s.task_history.length + budget + 1 := by
  intro budget
  induction budget with
  | zero =>
      intro retries s
      rw [retryLoopGo_exit_spent w task step _ s (hfail s)]
      simp [process_task_history_length]
  | succ b ih =>
      intro retries s
      rw [retryLoopGo_recurse w task step _ b s (hfail s) hrof]
      dsimp only
      have hrec := ih (retries + 1) (process_task w s task).2
      have hone := process_task_history_length w s task
      omega

/-- C5: the per-step retry policy.  (1) A step makes at most
`max_retries + 1` attempts, each recorded in the worker's history.
(2) Retrying stops as soon as an attempt succeeds, with no backoff slept
after it.  (3) Retrying stops immediately when `retry_on_failure` is
false, returning that attempt's result.  (4) Flagship run: a step with
`retry_on_failure = true`, `max_retries = 2` whose worker fails twice and
then succeeds yields the successful final result, exactly 3 attempts in
the worker's history, and total backoff `2^1 + 2^2 = 6` time units. -/
theorem step_retry_backoff_policy :
    (∀ (w : Worker) (task : AgentTask) (s : WorkerState) (step : WorkflowStep),
       (retryLoop w task s step).2.1.task_history.length ≤
         s.task_history.length + step.max_retries + 1) ∧
    (∀ (w : Worker) (task : AgentTask) (s : WorkerState) (step : WorkflowStep),
       (process_task w s task).1.status = AgentStatus.success →
       retryLoop w task s step =
         ((process_task w s task).1, (process_task w s task).2, 0)) ∧
    (∀ (w : Worker) (task : AgentTask) (s : WorkerState) (step : WorkflowStep),
       step.retry_on_failure = false →
       retryLoop w task s step =
         ((process_task w s task).1, (process_task w s task).2, 0)) ∧
    (∀ (r : AgentResult) (ctx : Ctx) (prev : ResultsMap),
       r.status = AgentStatus.success →
       execute_step [("a", flakyWorker r)] stepR ctx prev [] =
         (Except.ok { r with execution_time := 1 },
          [("a", { status := AgentStatus.success,
                   task_history :=
                     [{ agent_id := "a", task_id := "s1",
                        status := AgentStatus.failed, error := some "transient",
                        execution_time := 0, confidence := 0 },
                      { agent_id := "a", task_id := "s1",
                        status := AgentStatus.failed, error := some "transient",
                        execution_time := 0, confidence := 0 },
                      { r with execution_time := 1 }] })],
          6)) := by
  refine ⟨?_, ?_, ?_, ?_⟩
  · intro w task s step
    exact retryLoopGo_history_le w task step step.max_retries 0 s
  · intro w task s step h
    exact retryLoopGo_exit_success w task step 0 step.max_retries s h
  · intro w task s step h
    by_cases h1 : (process_task w s task).1.status = AgentStatus.success
    · exact retryLoopGo_exit_success w task step 0 step.max_retries s h1
    · exact retryLoopGo_exit_noretry w task step 0 step.max_retries s h1 h
  · intro r ctx prev hr
    simp [execute_step, dictGet, retryLoop, retryLoopGo, process_task,
          flakyWorker, stepR, mkStepTask, getWS, setWS, dictSet, hr]
    norm_num

/-- Witness for C5 at a concrete input: the flaky worker with a concrete
success result. -/
theorem step_retry_backoff_policy_witness :
    execute_step
        [("a", flakyWorker { agent_id := "a", task_id := "s1",
                             status := AgentStatus.success, confidence := 1 })]
        stepR [] [] [] =
      (Except.ok { agent_id := "a", task_id := "s1",
                   status := AgentStatus.success, confidence := 1,
                   execution_time := 1 },
       [("a", { status := AgentStatus.success,
                task_history :=
                  [{ agent_id := "a", task_id := "s1",
                     status := AgentStatus.failed, error := some "transient",
                     execution_time := 0, confidence := 0 },
                   { agent_id := "a", task_id := "s1",
                     status := AgentStatus.failed, error := some "transient",
                     execution_time := 0, confidence := 0 },
                   { agent_id := "a", task_id := "s1",
                     status := AgentStatus.success, confidence := 1,
                     execution_time := 1 }] })],
       6) :=
  step_retry_backoff_policy.2.2.2
    { agent_id := "a", task_id := "s1",
      status := AgentStatus.success, confidence := 1 } [] [] rfl

/-! ### Validation failures -/

/-- C8 counterexample: a worker whose `validate_input` always rejects, on a
step with `retry_on_failure = true`, `max_retries = 1`.  The attempt fails
with error "Invalid task input for v" — not "invalid input" — and the
scheduler retries it: two attempts are recorded in the history and one
backoff of 2 time units is slept. -/
theorem validation_failure_cex :
    execute_step [("v", alwaysInvalidWorker)] stepV [] [] [] =
      (Except.ok
         { agent_id := "v", task_id := "sV", status := AgentStatus.failed,
           error := some "Invalid task input for v",
           execution_time := 0, confidence := 0 },
       [("v", { status := AgentStatus.failed,
                task_history :=
                  [{ agent_id := "v", task_id := "sV",
                     status := AgentStatus.failed,
                     error := some "Invalid task input for v",
                     execution_time := 0, confidence := 0 },
                   { agent_id := "v", task_id := "sV",
                     status := AgentStatus.failed,
                     error := some "Invalid task input for v",
                     execution_time := 0, confidence := 0 }] })],
       2) ∧
    ("Invalid task input for v" : String) ≠ "invalid input" := by
  constructor
  · simp [execute_step, dictGet, retryLoop, retryLoopGo, process_task,
          alwaysInvalidWorker, stepV, mkStepTask, getWS, setWS, dictSet]
  · decide

/-- C8 amended: when `validate_input` returns false the attempt fails with
status Failed and error `"Invalid task input for {agent_id}"` (not
"invalid input"), and `execute` is not called — the outcome is the same
whatever `execute` is.  However, the scheduler does NOT treat validation
failures specially: with `retry_on_failure = true` a permanently-invalid
task is re-attempted until `max_retries` is exhausted, making exactly
`max_retries + 1` attempts. -/
theorem validation_failure_behaviour :
    (∀ (w : Worker) (s : WorkerState) (task : AgentTask),
       w.validate_input task = false →
       (process_task w s task).1 =
         { agent_id := w.agent_id, task_id := task.task_id,
           status := AgentStatus.failed,
           error := some ("Invalid task input for " ++ w.agent_id),
           execution_time := 0, confidence := 0 }) ∧
    (∀ (w : Worker) (s : WorkerState) (task : AgentTask)
       (e₂ : AgentTask → Nat → ExecOutcome),
       w.validate_input task = false →
       process_task { w with execute := e₂ } s task = process_task w s task) ∧
    (∀ (w : Worker) (task : AgentTask) (step : WorkflowStep) (s : WorkerState),
       (∀ t, w.validate_input t = false) → step.retry_on_failure = true →
       (retryLoop w task s step).2.1.task_history.length =
         s.task_history.length + step.max_retries + 1) := by
  refine ⟨?_, ?_, ?_⟩
  · intro w s task hv
    rw [process_task_invalid w s task hv]
  · intro w s task e₂ hv
    unfold process_task
    simp [hv]
  · intro w task step s hval hrof
    have hfail : ∀ s' : WorkerState,
        (process_task w s' task).1.status ≠ AgentStatus.success := by
      intro s'
      rw [process_task_invalid w s' task (hval task)]
      simp
    exact retryLoopGo_all_fail_history w task step hfail hrof
      step.max_retries 0 s

/-- Witness for C8 at a concrete input. -/
theorem validation_failure_behaviour_witness :
    (retryLoop alwaysInvalidWorker (mkStepTask stepV [] []) {} stepV).2.1.task_history.length = 2 :=
  validation_failure_behaviour.2.2 alwaysInvalidWorker (mkStepTask stepV [] [])
    stepV {} (fun _ => rfl) rfl

/-! ### Parallel mode: abort analysis -/

/-- Dispatch errors: `_execute_step` raises only when the step's agent is unregistered:
with a registered agent it always returns a Result, whatever happened. -/
theorem execute_step_ok_of_registered (reg : Registry) (step : WorkflowStep)
    (ctx : Ctx) (prev : ResultsMap) (ws : WStates)
    (h : (dictGet reg step.agent_id).isSome = true) :
    ∃ r, (execute_step reg step ctx prev ws).1 = Except.ok r := by
  unfold execute_step
  cases hm : dictGet reg step.agent_id with
  | none => rw [hm] at h; simp at h
  | some w => simp

/-- Every outcome of a wave over registered agents is a Result, not an
exception. -/
theorem runWave_all_ok (reg : Registry) (ctx : Ctx) (snapshot : ResultsMap) :
    ∀ (ready : List WorkflowStep) (ws : WStates),
    (∀ s ∈ ready, (dictGet reg s.agent_id).isSome = true) →
    ∀ p ∈ (runWave reg ctx snapshot ready ws).1, ∃ r, p.2 = Except.ok r := by
  intro ready
  induction ready with
  | nil =>
      intro ws h p hp
      simp [runWave] at hp
  | cons s rest ih =>
      intro ws h p hp
      rw [runWave] at hp
      rcases List.mem_cons.1 hp with hp1 | hp2
      · subst hp1
        exact execute_step_ok_of_registered reg s ctx snapshot ws (h s (by simp))
      · exact ih _ (fun t ht => h t (by simp [ht])) p hp2

/-- Processing a wave whose outcomes are all Results never re-raises. -/
theorem processWave_ok :
    ∀ (outs : List (WorkflowStep × Except String AgentResult))
      (results : ResultsMap) (completed : List String),
    (∀ p ∈ outs, ∃ r, p.2 = Except.ok r) →
    ∃ res comp, processWave outs results completed = Except.ok (res, comp) := by
  intro outs
  induction outs with
  | nil =>
      intro results completed _
      exact ⟨results, completed, rfl⟩
  | cons p rest ih =>
      intro results completed h
      obtain ⟨r, hr⟩ := h p (by simp)
      obtain ⟨st, e⟩ := p
      simp only at hr
      subst hr
      rw [processWave]
      exact ih _ _ (fun q hq => h q (by simp [hq]))

/-- With every step's agent registered, the parallel loop always completes
normally — failed step Results are recorded, never re-raised. -/
theorem parallelLoop_ok (reg : Registry) (steps : List WorkflowStep)
    (ctx : Ctx)
    (hreg : ∀ s ∈ steps, (dictGet reg s.agent_id).isSome = true) :
    ∀ (fuel : Nat) (completed : List String) (results : ResultsMap)
      (ws : WStates),
    ∃ R ws', parallelLoop reg steps ctx fuel completed results ws =
      (Except.ok R, ws') := by
  intro fuel
  induction fuel with
  | zero =>
      intro completed results ws
      exact ⟨results, ws, rfl⟩
  | succ f ih =>
      intro completed results ws
      rw [parallelLoop]
      by_cases hlen : steps.length ≤ completed.length
      · simp only [hlen, if_true]
        exact ⟨results, ws, rfl⟩
      · simp only [hlen, if_false]
        by_cases hready : (readySteps steps completed).isEmpty
        · simp only [hready, if_true]
          exact ⟨results, ws, rfl⟩
        · simp only [hready, if_false]
          have hwave := runWave_all_ok reg ctx results (readySteps steps completed) ws
            (fun s hs => hreg s (List.mem_filter.1 hs).1)
          obtain ⟨res', comp', hpw⟩ :=
            processWave_ok ((runWave reg ctx results (readySteps steps completed) ws).1)
              results completed hwave
          rw [hpw]
          exact ih comp' res' _

/-- C1 counterexample: a completed run whose only step failed (no Success
result anywhere, non-empty errors) is classified "partial_success", not
"failed" — the "failed" classification exists only in the exception
handler. -/
theorem workflow_status_cex :
    execute_workflow orchC1 "w1" [] [] =
      Except.ok
        ({ workflow_id := "w1", status := "partial_success",
           agent_results :=
             [("a", { agent_id := "a", task_id := "sA",
                      status := AgentStatus.failed, error := some "boom",
                      execution_time := 0, confidence := 0 })],
           overall_confidence := 0, errors := ["a: boom"] },
         [("a", { status := AgentStatus.failed,
                  task_history :=
                    [{ agent_id := "a", task_id := "sA",
                       status := AgentStatus.failed, error := some "boom",
                       execution_time := 0, confidence := 0 }] })]) ∧
    AgentStatus.failed ≠ AgentStatus.success ∧
    (["a: boom"] : List String) ≠ [] ∧
    ("partial_success" : String) ≠ "failed" := by
  refine ⟨rfl, by decide, by decide, by decide⟩

/-- C1 amended: on a normally-completing run `execute_workflow` classifies
"success" exactly when the collected errors list is empty and
"partial_success" otherwise — regardless of whether any Result has status
Success; the status is "failed" exactly when step execution raised an
exception (missing agent, or a sequential-mode required-step failure), in
which case `agent_results` is empty and `errors` holds just the exception
text. -/
theorem workflow_status_classification (orch : AgentOrchestrator)
    (wid : String) (ctx : Ctx) (ws : WStates) (wf : Workflow)
    (hwf : dictGet orch.workflows wid = some wf) :
    (∀ R ws', runSteps orch wf ctx ws = (Except.ok R, ws') →
       execute_workflow orch wid ctx ws = Except.ok
         ({ workflow_id := wid,
            status := if (collectErrors R).isEmpty then "success"
                      else "partial_success",
            agent_results := R, overall_confidence := overallConfidence R,
            errors := collectErrors R }, ws')) ∧
    (∀ e ws', runSteps orch wf ctx ws = (Except.error e, ws') →
       execute_workflow orch wid ctx ws = Except.ok
         ({ workflow_id := wid, status := "failed", agent_results := [],
            overall_confidence := 0, errors := [e] }, ws')) := by
  constructor
  · intro R ws' hrun
    simp only [execute_workflow, hwf, hrun]
  · intro e ws' hrun
    simp only [execute_workflow, hwf, hrun]

/-- Witness for the amended C1 theorem: the classification applied to the
concrete all-failed run. -/
theorem workflow_status_classification_witness :
    execute_workflow orchC1 "w1" [] [] =
      Except.ok
        ({ workflow_id := "w1",
           status := if (collectErrors
               [("a", { agent_id := "a", task_id := "sA",
                        status := AgentStatus.failed, error := some "boom",
                        execution_time := 0, confidence := 0 })]).isEmpty
             then "success" else "partial_success",
           agent_results :=
             [("a", { agent_id := "a", task_id := "sA",
                      status := AgentStatus.failed, error := some "boom",
                      execution_time := 0, confidence := 0 })],
           overall_confidence := overallConfidence
             [("a", { agent_id := "a", task_id := "sA",
                      status := AgentStatus.failed, error := some "boom",
                      execution_time := 0, confidence := 0 })],
           errors := collectErrors
             [("a", { agent_id := "a", task_id := "sA",
                      status := AgentStatus.failed, error := some "boom",
                      execution_time := 0, confidence := 0 })] },
         [("a", { status := AgentStatus.failed,
                  task_history :=
                    [{ agent_id := "a", task_id := "sA",
                       status := AgentStatus.failed, error := some "boom",
                       execution_time := 0, confidence := 0 }] })]) :=
  (workflow_status_classification orchC1 "w1" [] [] wfC1 rfl).1
    [("a", { agent_id := "a", task_id := "sA",
             status := AgentStatus.failed, error := some "boom",
             execution_time := 0, confidence := 0 })]
    [("a", { status := AgentStatus.failed,
             task_history :=
               [{ agent_id := "a", task_id := "sA",
                  status := AgentStatus.failed, error := some "boom",
                  execution_time := 0, confidence := 0 }] })]
    rfl

/-- C2 counterexample: required step "sA" fails its final (only) attempt,
yet the parallel workflow does not abort: the run completes with status
"partial_success", and step "sB" — which depends on "sA" — is dispatched
and succeeds. -/
theorem parallel_required_failure_cex :
    execute_workflow orchC2 "w2" [] [] =
      Except.ok
        ({ workflow_id := "w2", status := "partial_success",
           agent_results :=
             [("a", { agent_id := "a", task_id := "sA",
                      status := AgentStatus.failed, error := some "boom",
                      execution_time := 0, confidence := 0 }),
              ("b", { agent_id := "b", task_id := "sB",
                      status := AgentStatus.success, confidence := 1,
                      execution_time := 1 })],
           overall_confidence := 1, errors := ["a: boom"] },
         [("a", { status := AgentStatus.failed,
                  task_history :=
                    [{ agent_id := "a", task_id := "sA",
                       status := AgentStatus.failed, error := some "boom",
                       execution_time := 0, confidence := 0 }] }),
          ("b", { status := AgentStatus.success,
                  task_history :=
                    [{ agent_id := "b", task_id := "sB",
                       status := AgentStatus.success, confidence := 1,
                       execution_time := 1 }] })]) ∧
    stepA.optional = false ∧ stepB.depends_on = ["sA"] ∧
    ("partial_success" : String) ≠ "failed" := by
  refine ⟨by with_unfolding_all rfl, rfl, rfl, by decide⟩

/-- C2 amended: in parallel mode a required step whose final attempt fails
does NOT abort the workflow — the failed Result is recorded, the step is
marked completed and its dependents are dispatched (see the
counterexample).  The only way parallel execution aborts is an exception
from dispatch itself (an unregistered agent id): whenever every step's
agent is registered, `_execute_parallel` always completes normally. -/
theorem parallel_no_abort_when_registered (reg : Registry) (wf : Workflow)
    (ctx : Ctx) (ws : WStates)
    (hreg : ∀ s ∈ wf.steps, (dictGet reg s.agent_id).isSome = true) :
    ∃ R ws', execute_parallel reg wf ctx ws = (Except.ok R, ws') :=
  parallelLoop_ok reg wf.steps ctx hreg (wf.steps.length + 1) [] [] ws

/-- Witness for the amended C2 theorem on the concrete two-step workflow
with a failing required step. -/
theorem parallel_no_abort_when_registered_witness :
    ∃ R ws', execute_parallel orchC2.agents wfC2 [] [] = (Except.ok R, ws') :=
  parallel_no_abort_when_registered orchC2.agents wfC2 [] []
    (by intro s hs
        simp only [wfC2] at hs
        fin_cases hs <;> rfl)

/-- C3 counterexample: the single step depends on a step id that exists
nowhere, so the first ready wave is empty; the loop silently breaks and
the run completes with status "success", empty results and empty errors —
no GraphError-style exception is raised. -/
theorem parallel_stall_cex :
    execute_workflow orchC3 "w3" [] [] =
      Except.ok
        ({ workflow_id := "w3", status := "success",
           agent_results := [], overall_confidence := 0, errors := [] },
         []) ∧
    ("success" : String) ≠ "failed" := by
  exact ⟨rfl, by decide⟩

/-- C3 amended: an empty ready wave with uncompleted steps makes
`_execute_parallel` break out of its loop and return the partial results
collected so far; `execute_workflow` then completes normally (with the
stalled steps simply missing).  In particular a workflow stalled from the
start returns an empty results map — from which the classifier even
produces status "success". -/
theorem parallel_stall_breaks (reg : Registry) (wf : Workflow) (ctx : Ctx)
    (ws : WStates)
    (hne : wf.steps ≠ [])
    (hstall : readySteps wf.steps [] = []) :
    execute_parallel reg wf ctx ws = (Except.ok [], ws) := by
  unfold execute_parallel
  rw [parallelLoop]
  have h0 : ¬ (wf.steps.length ≤ ([] : List String).length) := by
    simp only [List.length_nil, Nat.le_zero, List.length_eq_zero]
    exact hne
  simp [h0, hstall]

/-- Witness for the amended C3 theorem on the concrete stalled workflow. -/
theorem parallel_stall_breaks_witness :
    execute_parallel orchC3.agents wfC3 [] [] = (Except.ok [], []) :=
  parallel_stall_breaks orchC3.agents wfC3 [] [] (by simp [wfC3]) rfl

/-! ### Dictionary lemmas -/

theorem dictGet_cons {α : Type} (k' : String) (v' : α) (l : List (String × α)) (k : String) :
    dictGet ((k', v') :: l) k = if k' = k then some v' else dictGet l k := by
  by_cases h : k' = k
  · simp [dictGet, List.find?_cons_of_pos, h]
  · rw [dictGet, List.find?_cons_of_neg]
    · simp [dictGet, h]
    · simp [h]

theorem dictGet_set_self {α : Type} (l : List (String × α)) (k : String) (v : α) :
    dictGet (dictSet l k v) k = some v := by
  induction l with
  | nil => simp [dictGet, dictSet]
  | cons p rest ih =>
      obtain ⟨k', v'⟩ := p
      by_cases h : k' = k
      · simp [dictSet, h, dictGet_cons]
      · simp [dictSet, h, dictGet_cons, ih]

theorem dictGet_set_other {α : Type} (l : List (String × α)) (k k2 : String) (v : α)
    (h : k2 ≠ k) :
    dictGet (dictSet l k v) k2 = dictGet l k2 := by
  induction l with
  | nil => simp [dictGet, dictSet, dictGet_cons, Ne.symm h]
  | cons p rest ih =>
      obtain ⟨k', v'⟩ := p
      by_cases hk : k' = k
      · subst hk
        simp [dictSet, dictGet_cons, Ne.symm h]
      · simp [dictSet, hk, dictGet_cons, ih]

theorem dictSet_append_of_none {α : Type} (l : List (String × α)) (k : String) (v : α)
    (h : dictGet l k = none) :
    dictSet l k v = l ++ [(k, v)] := by
  induction l with
  | nil => simp [dictSet]
  | cons p rest ih =>
      obtain ⟨k', v'⟩ := p
      rw [dictGet_cons] at h
      by_cases hk : k' = k
      · simp [hk] at h
      · simp [hk] at h
        simp [dictSet, hk, ih h]

theorem dictGet_append {α : Type} (l1 l2 : List (String × α)) (k : String) :
    dictGet (l1 ++ l2) k = ((dictGet l1 k).orElse (fun _ => dictGet l2 k)) := by
  induction l1 with
  | nil => simp [dictGet]
  | cons p rest ih =>
      obtain ⟨k', v'⟩ := p
      by_cases hk : k' = k <;> simp [dictGet_cons, hk, ih]

theorem dictGet_eq_none_iff {α : Type} (l : List (String × α)) (k : String) :
    dictGet l k = none ↔ k ∉ l.map Prod.fst := by
  induction l with
  | nil => simp [dictGet]
  | cons p rest ih =>
      obtain ⟨k', v'⟩ := p
      by_cases hk : k' = k
      · simp [dictGet_cons, hk]
      · simp [dictGet_cons, hk, ih]
        intro h
        exact fun hkk => hk hkk.symm

/-! ### Context propagation -/

/-- C7 counterexample: in the A→B workflow, B's Task context (observed via
the echoing worker's payload) carries A's payload under the key
`"a_result"` — the worker id suffixed with "_result" — and carries NO
entry under A's worker id `"a"` itself. -/
theorem context_propagation_cex :
    execute_parallel (regC7 [("x", Val.num 1)]) wfC7 [] [] =
      (Except.ok
        [("a", { agent_id := "a", task_id := "sA",
                 status := AgentStatus.success,
                 result := [("x", Val.num 1)],
                 confidence := 1, execution_time := 1 }),
         ("b", { agent_id := "b", task_id := "sB",
                 status := AgentStatus.success,
                 result := [("a_result", Val.dict [("x", Val.num 1)])],
                 confidence := 1, execution_time := 1 })],
       [("a", { status := AgentStatus.success,
                task_history :=
                  [{ agent_id := "a", task_id := "sA",
                     status := AgentStatus.success,
                     result := [("x", Val.num 1)],
                     confidence := 1, execution_time := 1 }] }),
        ("b", { status := AgentStatus.success,
                task_history :=
                  [{ agent_id := "b", task_id := "sB",
                     status := AgentStatus.success,
                     result := [("a_result", Val.dict [("x", Val.num 1)])],
                     confidence := 1, execution_time := 1 }] })]) ∧
    dictGet [("a_result", Val.dict [("x", Val.num 1)])] "a" = none ∧
    dictGet [("a_result", Val.dict [("x", Val.num 1)])] "a_result" =
      some (Val.dict [("x", Val.num 1)]) := by
  refine ⟨rfl, rfl, rfl⟩

/-- C7 amended: the Task built for step B carries the workflow-level shared
context merged with, for each completed dependency D, an entry keyed by
D's worker id SUFFIXED with "_result" (`"{agent_id}_result"`, not the bare
worker id) holding D's result payload.  In the A→B workflow, B's Task
context is exactly `ctx` updated at key "a_result" with A's payload. -/
theorem context_propagation (p ctx : Ctx) :
    execute_parallel (regC7 p) wfC7 ctx [] =
      (Except.ok
        [("a", { agent_id := "a", task_id := "sA",
                 status := AgentStatus.success, result := p,
                 confidence := 1, execution_time := 1 }),
         ("b", { agent_id := "b", task_id := "sB",
                 status := AgentStatus.success,
                 result := dictSet ctx "a_result" (Val.dict p),
                 confidence := 1, execution_time := 1 })],
       [("a", { status := AgentStatus.success,
                task_history :=
                  [{ agent_id := "a", task_id := "sA",
                     status := AgentStatus.success, result := p,
                     confidence := 1, execution_time := 1 }] }),
        ("b", { status := AgentStatus.success,
                task_history :=
                  [{ agent_id := "b", task_id := "sB",
                     status := AgentStatus.success,
                     result := dictSet ctx "a_result" (Val.dict p),
                     confidence := 1, execution_time := 1 }] })]) ∧
    dictGet (dictSet ctx "a_result" (Val.dict p)) "a_result" =
      some (Val.dict p) := by
  constructor
  · simp [execute_parallel, parallelLoop, readySteps, runWave, processWave,
          execute_step, retryLoop, retryLoopGo, process_task, mkStepTask,
          buildTaskContext, regC7, wfC7, stepA7, stepB7, payloadWorker,
          echoWorker, getWS, setWS, dictGet, dictSet]
  · exact dictGet_set_self ctx "a_result" (Val.dict p)

/-! ### Ad-hoc coordination -/

/-- C9 (bug in the source): `coordinate_agents` builds tasks only for
registered ids but zips the ORIGINAL id list against the filtered result
list, so with `["ghost", "a"]` (only "a" registered) worker "a"'s Result
is returned under the key "ghost" and "a" is absent from the map — the
association between worker ids and their Results is scrambled. -/
theorem coordinate_agents_misassociation :
    coordinate_agents regC9 ["ghost", "a"] "goal" [] "0" [] =
      ([("ghost", rCoordA)],
       [("a", { status := AgentStatus.success,
                task_history := [rCoordA] })]) ∧
    rCoordA.agent_id = "a" ∧
    dictGet [("ghost", rCoordA)] "a" = none ∧
    ("ghost" : String) ≠ "a" := by
  refine ⟨rfl, rfl, rfl, by decide⟩

/-! ### Mode equivalence -/

/-- C10 counterexample: an acyclic workflow whose declaration order
respects its dependencies and whose steps all succeed on their first
attempt (witnessed by `goodStep` for every step), but in which two steps
share agent id "x".  The later wave's result for "x" overwrites the
earlier one differently in the two modes: parallel execution yields
`overall_confidence = 3/5`, sequential execution `9/10`. -/
theorem mode_equivalence_cex :
    execute_workflow orchC10 "wp" [] [] =
      Except.ok
        ({ workflow_id := "wp", status := "success",
           agent_results :=
             [("a", { agent_id := "a", task_id := "sA",
                      status := AgentStatus.success, confidence := 1,
                      execution_time := 1 }),
              ("x", { agent_id := "x", task_id := "sB",
                      status := AgentStatus.success, confidence := 1/5,
                      execution_time := 1 })],
           overall_confidence := 3/5, errors := [] },
         [("a", { status := AgentStatus.success,
                  task_history :=
                    [{ agent_id := "a", task_id := "sA",
                       status := AgentStatus.success, confidence := 1,
                       execution_time := 1 }] }),
          ("x", { status := AgentStatus.success,
                  task_history :=
                    [{ agent_id := "x", task_id := "sC",
                       status := AgentStatus.success, confidence := 4/5,
                       execution_time := 1 },
                     { agent_id := "x", task_id := "sB",
                       status := AgentStatus.success, confidence := 1/5,
                       execution_time := 1 }] })]) ∧
    execute_workflow orchC10 "wq" [] [] =
      Except.ok
        ({ workflow_id := "wq", status := "success",
           agent_results :=
             [("a", { agent_id := "a", task_id := "sA",
                      status := AgentStatus.success, confidence := 1,
                      execution_time := 1 }),
              ("x", { agent_id := "x", task_id := "sC",
                      status := AgentStatus.success, confidence := 4/5,
                      execution_time := 1 })],
           overall_confidence := 9/10, errors := [] },
         [("a", { status := AgentStatus.success,
                  task_history :=
                    [{ agent_id := "a", task_id := "sA",
                       status := AgentStatus.success, confidence := 1,
                       execution_time := 1 }] }),
          ("x", { status := AgentStatus.success,
                  task_history :=
                    [{ agent_id := "x", task_id := "sB",
                       status := AgentStatus.success, confidence := 1/5,
                       execution_time := 1 },
                     { agent_id := "x", task_id := "sC",
                       status := AgentStatus.success, confidence := 4/5,
                       execution_time := 1 }] })]) ∧
    (3/5 : ℚ) ≠ 9/10 ∧
    wfC10par.steps = stepsC10 ∧ wfC10seq.steps = stepsC10 ∧
    wfC10par.parallel_execution = true ∧
    wfC10seq.parallel_execution = false ∧
    depsRespectOrder [] stepsC10 ∧
    (∀ s ∈ stepsC10, goodStep regC10 s) := by
  refine ⟨by with_unfolding_all rfl, by with_unfolding_all rfl,
          by norm_num, rfl, rfl, rfl, rfl, ?_, ?_⟩
  · simp [depsRespectOrder, stepsC10]
  · intro s hs
    simp only [stepsC10] at hs
    fin_cases hs
    · exact ⟨okWorker "a" 1, rfl, fun _ => rfl,
        fun task n => ⟨{ agent_id := "a", task_id := task.task_id,
                         status := AgentStatus.success, confidence := 1 },
                       1, rfl, rfl, rfl⟩⟩
    · exact ⟨pickyWorker, rfl, fun _ => rfl,
        fun task n => ⟨{ agent_id := "x", task_id := task.task_id,
                         status := AgentStatus.success,
                         confidence := if task.task_id = "sB" then 1/5 else 4/5 },
                       1, rfl, rfl, rfl⟩⟩
    · exact ⟨pickyWorker, rfl, fun _ => rfl,
        fun task n => ⟨{ agent_id := "x", task_id := task.task_id,
                         status := AgentStatus.success,
                         confidence := if task.task_id = "sB" then 1/5 else 4/5 },
                       1, rfl, rfl, rfl⟩⟩

/-- Folding the dependency-entry writer over `prev` touches only the
entries whose `task_id` matches the dependency. -/
theorem buildFold_eq_filter (d : String) :
    ∀ (prev : ResultsMap) (c : Ctx),
    prev.foldl (fun c2 p => if p.2.task_id = d then
        dictSet c2 (p.1 ++ "_result") (Val.dict p.2.result) else c2) c
      = (prev.filter (fun p => p.2.task_id = d)).foldl
          (fun c2 p => dictSet c2 (p.1 ++ "_result") (Val.dict p.2.result)) c := by
  intro prev
  induction prev with
  | nil => intro c; rfl
  | cons p rest ih =>
      intro c
      by_cases h : p.2.task_id = d <;> simp [h, List.filter_cons, ih]

/-- The Task context built for a step depends on `previous_results` only
through the entries matching each of its dependencies. -/
theorem buildTaskContext_congr (s : WorkflowStep) (ctx : Ctx)
    (p₁ p₂ : ResultsMap)
    (h : ∀ d ∈ s.depends_on,
        p₁.filter (fun q => q.2.task_id = d) =
        p₂.filter (fun q => q.2.task_id = d)) :
    buildTaskContext s ctx p₁ = buildTaskContext s ctx p₂ := by
  unfold buildTaskContext
  have main : ∀ (deps : List String) (c : Ctx),
      (∀ d ∈ deps,
        p₁.filter (fun q => q.2.task_id = d) =
        p₂.filter (fun q => q.2.task_id = d)) →
      deps.foldl (fun c2 dep => p₁.foldl (fun c3 p =>
          if p.2.task_id = dep then
            dictSet c3 (p.1 ++ "_result") (Val.dict p.2.result) else c3) c2) c
        = deps.foldl (fun c2 dep => p₂.foldl (fun c3 p =>
          if p.2.task_id = dep then
            dictSet c3 (p.1 ++ "_result") (Val.dict p.2.result) else c3) c2) c := by
    intro deps
    induction deps with
    | nil => intro c _; rfl
    | cons d rest ih =>
        intro c hd
        simp only [List.foldl_cons]
        rw [buildFold_eq_filter, hd d (by simp), ← buildFold_eq_filter]
        exact ih _ (fun d' hd' => hd d' (by simp [hd']))
  exact main s.depends_on ctx h

/-- Locality: `stepOutput` depends on `prev` only through the dependency entries. -/
theorem stepOutput_congr (reg : Registry) (ws₀ : WStates) (ctx : Ctx)
    (s : WorkflowStep) (p₁ p₂ : ResultsMap)
    (h : ∀ d ∈ s.depends_on,
        p₁.filter (fun q => q.2.task_id = d) =
        p₂.filter (fun q => q.2.task_id = d)) :
    stepOutput reg ws₀ ctx s p₁ = stepOutput reg ws₀ ctx s p₂ := by
  unfold stepOutput mkStepTask
  rw [buildTaskContext_congr s ctx p₁ p₂ h]

/-- Under `goodStep`, the canonical Result of a step has status Success
and echoes the step's id. -/
theorem stepOutput_props (reg : Registry) (ws₀ : WStates) (ctx : Ctx)
    (s : WorkflowStep) (prev : ResultsMap) (hg : goodStep reg s) :
    (stepOutput reg ws₀ ctx s prev).status = AgentStatus.success ∧
    (stepOutput reg ws₀ ctx s prev).task_id = s.step_id := by
  obtain ⟨w, hw, hv, he⟩ := hg
  obtain ⟨r, dur, hex, hst, htid⟩ :=
    he (mkStepTask s ctx prev) (getWS ws₀ s.agent_id).task_history.length
  simp only [stepOutput, hw, hex]
  refine ⟨by simp [hst], by simp [htid, mkStepTask]⟩

/-- Splitting `canonAux` over an appended list. -/
theorem canonAux_append (reg : Registry) (ws₀ : WStates) (ctx : Ctx) :
    ∀ (P Q : List WorkflowStep) (acc : ResultsMap),
    canonAux reg ws₀ ctx (P ++ Q) acc =
      canonAux reg ws₀ ctx Q (canonAux reg ws₀ ctx P acc) := by
  intro P
  induction P with
  | nil => intro Q acc; rfl
  | cons s P' ih => intro Q acc; simp [canonAux, ih]

/-- Reading another worker's state after a store. -/
theorem getWS_set_other (ws : WStates) (aid : String) (st : WorkerState)
    (a : String) (h : a ≠ aid) :
    getWS (setWS ws aid st) a = getWS ws a := by
  unfold getWS setWS
  rw [dictGet_set_other ws aid a st h]

/-- Reading the stored worker's state back. -/
theorem getWS_set_self (ws : WStates) (aid : String) (st : WorkerState) :
    getWS (setWS ws aid st) aid = st := by
  unfold getWS setWS
  rw [dictGet_set_self]
  rfl

/-- Running `_execute_step` on a step whose first attempt succeeds: one attempt,
no backoff, the canonical Result, and only that worker's state touched.
The worker's history length at call time must equal its initial one (the
worker has not run yet). -/
theorem execute_step_good (reg : Registry) (s : WorkflowStep) (ctx : Ctx)
    (prev : ResultsMap) (ws ws₀ : WStates)
    (hg : goodStep reg s)
    (hlen : (getWS ws s.agent_id).task_history.length
          = (getWS ws₀ s.agent_id).task_history.length) :
    execute_step reg s ctx prev ws =
      (Except.ok (stepOutput reg ws₀ ctx s prev),
       setWS ws s.agent_id
         { status := AgentStatus.success,
           task_history := (getWS ws s.agent_id).task_history
             ++ [stepOutput reg ws₀ ctx s prev] }, 0) := by
  obtain ⟨w, hw, hv, he⟩ := hg
  obtain ⟨r, dur, hex, hst, htid⟩ :=
    he (mkStepTask s ctx prev) ((getWS ws s.agent_id).task_history.length)
  have hpt := process_task_ok w (getWS ws s.agent_id) (mkStepTask s ctx prev)
    r dur (hv _) hex
  have hout : stepOutput reg ws₀ ctx s prev = { r with execution_time := dur } := by
    rw [hlen] at hex
    simp only [stepOutput, hw, hex]
  simp only [execute_step, hw, retryLoop]
  rw [retryLoopGo_exit_success w (mkStepTask s ctx prev) s 0 s.max_retries
    (getWS ws s.agent_id) (by rw [hpt]; simpa using hst)]
  rw [hpt]
  simp [hout]

/-- The sequential loop under `goodStep` steps computes the canonical
association list. -/
theorem sequentialLoop_good (reg : Registry) (ctx : Ctx) (ws₀ : WStates) :
    ∀ (L : List WorkflowStep) (acc : ResultsMap) (ws : WStates),
    (∀ s ∈ L, goodStep reg s) →
    ((L.map WorkflowStep.agent_id).Nodup) →
    (∀ s ∈ L, dictGet acc s.agent_id = none) →
    (∀ s ∈ L, (getWS ws s.agent_id).task_history.length
       = (getWS ws₀ s.agent_id).task_history.length) →
    ∃ ws', sequentialLoop reg ctx L acc ws =
      (Except.ok (canonAux reg ws₀ ctx L acc), ws') := by
  intro L
  induction L with
  | nil => intro acc ws _ _ _ _; exact ⟨ws, rfl⟩
  | cons s rest ih =>
      intro acc ws hgood hnd hfree hlen
      rw [sequentialLoop]
      rw [execute_step_good reg s ctx acc ws ws₀ (hgood s (by simp))
        (hlen s (by simp))]
      have hst := (stepOutput_props reg ws₀ ctx s acc (hgood s (by simp))).1
      have hcond : ¬ ((stepOutput reg ws₀ ctx s acc).status = AgentStatus.failed
          ∧ s.optional = false) := by
        intro hc
        rw [hst] at hc
        exact absurd hc.1 (by decide)
      simp only [hcond, if_false, ite_false]
      have hset : dictSet acc s.agent_id (stepOutput reg ws₀ ctx s acc)
          = acc ++ [(s.agent_id, stepOutput reg ws₀ ctx s acc)] :=
        dictSet_append_of_none acc s.agent_id _ (hfree s (by simp))
      rw [hset]
      have hagent : s.agent_id ∉ rest.map WorkflowStep.agent_id := by
        have := hnd
        simp only [List.map_cons, List.nodup_cons] at this
        exact this.1
      have hfree' : ∀ t ∈ rest,
          dictGet (acc ++ [(s.agent_id, stepOutput reg ws₀ ctx s acc)])
            t.agent_id = none := by
        intro t ht
        rw [dictGet_append]
        rw [hfree t (by simp [ht])]
        have hne : t.agent_id ≠ s.agent_id := by
          intro hEq
          exact hagent (hEq ▸ List.mem_map_of_mem WorkflowStep.agent_id ht)
        simp [dictGet, dictGet_cons, Ne.symm hne]
      have hlen' : ∀ t ∈ rest,
          (getWS (setWS ws s.agent_id
            { status := AgentStatus.success,
              task_history := (getWS ws s.agent_id).task_history
                ++ [stepOutput reg ws₀ ctx s acc] }) t.agent_id).task_history.length
          = (getWS ws₀ t.agent_id).task_history.length := by
        intro t ht
        have hne : t.agent_id ≠ s.agent_id := by
          intro hEq
          exact hagent (hEq ▸ List.mem_map_of_mem WorkflowStep.agent_id ht)
        rw [getWS_set_other ws s.agent_id _ t.agent_id hne]
        exact hlen t (by simp [ht])
      obtain ⟨ws', hws'⟩ := ih (acc ++ [(s.agent_id, stepOutput reg ws₀ ctx s acc)])
        (setWS ws s.agent_id _)
        (fun t ht => hgood t (by simp [ht]))
        (by simpa using hnd.of_cons)
        hfree' hlen'
      refine ⟨ws', ?_⟩
      rw [canonAux]
      exact hws'

/-- Running `_execute_sequential` under `goodStep` steps computes the canonical
association list when started from the initial worker states. -/
theorem execute_sequential_good (reg : Registry) (wf : Workflow) (ctx : Ctx)
    (ws₀ : WStates)
    (hgood : ∀ s ∈ wf.steps, goodStep reg s)
    (hnd : (wf.steps.map WorkflowStep.agent_id).Nodup) :
    ∃ ws', execute_sequential reg wf ctx ws₀ =
      (Except.ok (canonAux reg ws₀ ctx wf.steps []), ws') := by
  unfold execute_sequential
  exact sequentialLoop_good reg ctx ws₀ wf.steps [] ws₀ hgood hnd
    (fun s _ => rfl) (fun s _ => rfl)

/-- The scan of `takeWhile` stops at the occurrence of `s` itself. -/
theorem takeWhile_split (s : WorkflowStep) :
    ∀ (P Q : List WorkflowStep),
    (∀ t ∈ P, t.step_id ≠ s.step_id) →
    (P ++ s :: Q).takeWhile (fun t => decide (t.step_id ≠ s.step_id)) = P := by
  intro P
  induction P with
  | nil =>
      intro Q _
      simp [List.takeWhile]
  | cons t P' ih =>
      intro Q hP
      have ht : t.step_id ≠ s.step_id := hP t (by simp)
      rw [List.cons_append, List.takeWhile_cons_of_pos (by simp [ht])]
      rw [ih Q (fun u hu => hP u (by simp [hu]))]

/-- A `takeWhile` whose stopper lies inside the first part never reaches
the second. -/
theorem takeWhile_append_stop (p : WorkflowStep → Bool) :
    ∀ (P Q : List WorkflowStep), (∃ t ∈ P, p t = false) →
    (P ++ Q).takeWhile p = P.takeWhile p := by
  intro P
  induction P with
  | nil => intro Q h; simp at h
  | cons t P' ih =>
      intro Q h
      by_cases hpt : p t
      · obtain ⟨u, hu, hpu⟩ := h
        rcases List.mem_cons.1 hu with rfl | hu'
        · rw [hpt] at hpu; cases hpu
        · simp only [List.cons_append, List.takeWhile_cons, hpt]
          rw [ih Q ⟨u, hu', hpu⟩]
      · have : p t = false := by revert hpt; cases p t <;> simp
        simp [List.takeWhile_cons, this]

/-- Evaluating `canonAux` of a full list with distinct step ids: the list of
canonical entries. -/
theorem canonAux_full (reg : Registry) (ws₀ : WStates) (ctx : Ctx)
    (L : List WorkflowStep)
    (hnd : (L.map WorkflowStep.step_id).Nodup) :
    canonAux reg ws₀ ctx L [] =
      L.map (fun s => (s.agent_id, canonVal reg ws₀ ctx L s)) := by
  suffices main : ∀ (Q P : List WorkflowStep), L = P ++ Q →
      canonAux reg ws₀ ctx P [] =
        P.map (fun s => (s.agent_id, canonVal reg ws₀ ctx L s)) →
      canonAux reg ws₀ ctx Q (canonAux reg ws₀ ctx P []) =
        L.map (fun s => (s.agent_id, canonVal reg ws₀ ctx L s)) by
    have h0 := main L [] rfl (by simp [canonAux])
    simpa [canonAux] using h0
  intro Q
  induction Q with
  | nil =>
      intro P hL hP
      rw [canonAux, hP, hL]
      simp
  | cons s Q' ih =>
      intro P hL hP
      have hsid : ∀ t ∈ P, t.step_id ≠ s.step_id := by
        intro t ht hEq
        have hnd' := hnd
        rw [hL] at hnd'
        simp only [List.map_append, List.map_cons] at hnd'
        have hdisj := (List.nodup_append.1 hnd').2.2
        exact hdisj (hEq ▸ List.mem_map_of_mem WorkflowStep.step_id ht)
          (by simp)
      have htw : L.takeWhile (fun t => decide (t.step_id ≠ s.step_id)) = P := by
        rw [hL]
        exact takeWhile_split s P Q' hsid
      have hval : stepOutput reg ws₀ ctx s (canonAux reg ws₀ ctx P []) =
          canonVal reg ws₀ ctx L s := by
        unfold canonVal
        rw [htw]
      rw [canonAux]
      have hPs : canonAux reg ws₀ ctx P [] ++
          [(s.agent_id, canonVal reg ws₀ ctx L s)] =
          canonAux reg ws₀ ctx (P ++ [s]) [] := by
        rw [canonAux_append]
        rw [canonAux, canonAux, hval]
      rw [hval, hPs]
      exact ih (P ++ [s]) (by rw [hL]; simp)
        (by
          rw [← hPs, hP]
          simp)

/-- Membership in the ready wave, unfolded. -/
theorem mem_readySteps (steps : List WorkflowStep) (completed : List String)
    (s : WorkflowStep) :
    s ∈ readySteps steps completed ↔
      s ∈ steps ∧ s.step_id ∉ completed ∧
        ∀ d ∈ s.depends_on, d ∈ completed := by
  simp [readySteps, List.mem_filter, List.all_eq_true, List.elem_iff]

/-- The canonical Result of a step of a prefix agrees with the one taken
over the whole list. -/
theorem canonVal_restrict (reg : Registry) (ws₀ : WStates) (ctx : Ctx)
    (L P Q : List WorkflowStep) (hL : L = P ++ Q)
    (s : WorkflowStep) (hs : s ∈ P) :
    canonVal reg ws₀ ctx L s = canonVal reg ws₀ ctx P s := by
  unfold canonVal
  rw [hL, takeWhile_append_stop _ P Q ⟨s, hs, by simp⟩]

/-- Evaluating `canonAux` of a prefix of `L`: the canonical entries of `L`. -/
theorem canonAux_take (reg : Registry) (ws₀ : WStates) (ctx : Ctx)
    (L P Q : List WorkflowStep) (hL : L = P ++ Q)
    (hnd : (L.map WorkflowStep.step_id).Nodup) :
    canonAux reg ws₀ ctx P [] =
      P.map (fun s => (s.agent_id, canonVal reg ws₀ ctx L s)) := by
  have hndP : (P.map WorkflowStep.step_id).Nodup := by
    rw [hL] at hnd
    simp only [List.map_append] at hnd
    exact (List.nodup_append.1 hnd).1
  rw [canonAux_full reg ws₀ ctx P hndP]
  apply List.map_congr_left
  intro s hs
  rw [canonVal_restrict reg ws₀ ctx L P Q hL s hs]

/-- Filtering the canonical entries by a dependency id selects exactly the
entry of the unique step carrying that id. -/
theorem filter_entries_singleton (d : String) :
    ∀ (N : List WorkflowStep) (f : WorkflowStep → String × AgentResult),
    (∀ T ∈ N, (f T).2.task_id = T.step_id) →
    ((N.map WorkflowStep.step_id).Nodup) →
    ∀ D ∈ N, D.step_id = d →
    (N.map f).filter (fun q => q.2.task_id = d) = [f D] := by
  intro N
  induction N with
  | nil => intro f _ _ D hD; cases hD
  | cons T N' ih =>
      intro f htask hnd D hD hid
      rw [List.map_cons, List.nodup_cons] at hnd
      have hndh : T.step_id ∉ N'.map WorkflowStep.step_id := hnd.1
      simp only [List.map_cons, List.filter_cons]
      by_cases hT : T.step_id = d
      · have hTD : T = D := by
          rcases List.mem_cons.1 hD with h | h
          · exact h.symm
          · exfalso
            apply hndh
            have hmem : D.step_id ∈ N'.map WorkflowStep.step_id :=
              List.mem_map_of_mem WorkflowStep.step_id h
            rw [hid, ← hT] at hmem
            exact hmem
      -- the head is kept, the rest is filtered away
        have hkeep : (f T).2.task_id = d := by rw [htask T (by simp), hT]
        have hrest : (N'.map f).filter (fun q => q.2.task_id = d) = [] := by
          rw [List.filter_eq_nil]
          intro q hq
          obtain ⟨T', hT', hfT'⟩ := List.mem_map.1 hq
          intro hqd
          apply hndh
          rw [← hfT'] at hqd
          have : T'.step_id = d := by
            rw [← htask T' (by simp [hT'])]
            simpa using hqd
          rw [hT, ← this]
          exact List.mem_map_of_mem WorkflowStep.step_id hT'
        subst hTD
        simp [hkeep, hrest]
      · have hdrop : ¬ ((f T).2.task_id = d) := by
          rw [htask T (by simp)]
          exact hT
        have hD' : D ∈ N' := by
          rcases List.mem_cons.1 hD with h | h
          · exfalso; exact hT (h ▸ hid)
          · exact h
        simp only [hdrop, decide_eq_true_eq, if_false, ite_false]
        rw [ih f (fun U hU => htask U (by simp [hU])) hnd.2 D hD' hid]

/-- Every dependency of a step is (an already-seen id or) the id of a step
declared before it. -/
theorem depsRespectOrder_mem (s : WorkflowStep) :
    ∀ (L : List WorkflowStep) (seen : List String),
    depsRespectOrder seen L →
    ((L.map WorkflowStep.step_id).Nodup) →
    s ∈ L → ∀ d ∈ s.depends_on,
    d ∈ seen ∨ ∃ D ∈ L.takeWhile (fun t => decide (t.step_id ≠ s.step_id)),
      D.step_id = d := by
  intro L
  induction L with
  | nil => intro seen _ _ hs; cases hs
  | cons T L' ih =>
      intro seen hord hnd hs d hd
      rw [List.map_cons, List.nodup_cons] at hnd
      rcases List.mem_cons.1 hs with rfl | hs'
      · exact Or.inl (hord.1 d hd)
      · have hTs : T.step_id ≠ s.step_id := by
          intro hEq
          exact hnd.1 (hEq ▸ List.mem_map_of_mem WorkflowStep.step_id hs')
        rw [List.takeWhile_cons_of_pos (by simp [hTs])]
        rcases ih (T.step_id :: seen) hord.2 hnd.2 hs' d hd with hseen | ⟨D, hDmem, hDid⟩
        · rcases List.mem_cons.1 hseen with rfl | h2
          · exact Or.inr ⟨T, by simp, rfl⟩
          · exact Or.inl h2
        · exact Or.inr ⟨D, by
            simp only [List.mem_cons]
            exact Or.inr hDmem, hDid⟩

/-- While uncompleted steps remain, some uncompleted step has all its
dependencies completed (dependencies only point backwards). -/
theorem exists_ready_step :
    ∀ (L : List WorkflowStep) (seen completed : List String),
    depsRespectOrder seen L →
    (∀ x ∈ seen, x ∈ completed) →
    (∃ s ∈ L, s.step_id ∉ completed) →
    ∃ s ∈ L, s.step_id ∉ completed ∧ ∀ d ∈ s.depends_on, d ∈ completed := by
  intro L
  induction L with
  | nil => intro seen completed _ _ h; simp at h
  | cons T L' ih =>
      intro seen completed hord hseen hex
      by_cases hT : T.step_id ∈ completed
      · obtain ⟨s, hs, hsc⟩ := hex
        rcases List.mem_cons.1 hs with rfl | hs'
        · exact absurd hT hsc
        · obtain ⟨u, hu, huc, hud⟩ := ih (T.step_id :: seen) completed hord.2
            (by
              intro x hx
              rcases List.mem_cons.1 hx with rfl | hx'
              · exact hT
              · exact hseen x hx')
            ⟨s, hs', hsc⟩
          exact ⟨u, by simp [hu], huc, hud⟩
      · exact ⟨T, by simp, hT, fun d hd => hseen d (hord.1 d hd)⟩

/-- A wave of `goodStep` steps with fresh workers: every outcome is the
canonical one against the snapshot, and other workers are untouched. -/
theorem runWave_good (reg : Registry) (ctx : Ctx) (snapshot : ResultsMap)
    (ws₀ : WStates) :
    ∀ (ready : List WorkflowStep) (ws : WStates),
    (∀ s ∈ ready, goodStep reg s) →
    ((ready.map WorkflowStep.agent_id).Nodup) →
    (∀ s ∈ ready, (getWS ws s.agent_id).task_history.length
        = (getWS ws₀ s.agent_id).task_history.length) →
    (runWave reg ctx snapshot ready ws).1 =
      ready.map (fun s => (s, Except.ok (stepOutput reg ws₀ ctx s snapshot))) ∧
    (∀ a, a ∉ ready.map WorkflowStep.agent_id →
      getWS (runWave reg ctx snapshot ready ws).2 a = getWS ws a) := by
  intro ready
  induction ready with
  | nil => intro ws _ _ _; exact ⟨rfl, fun a _ => rfl⟩
  | cons s rest ih =>
      intro ws hgood hnd hlen
      rw [List.map_cons, List.nodup_cons] at hnd
      rw [runWave]
      rw [execute_step_good reg s ctx snapshot ws ws₀ (hgood s (by simp))
        (hlen s (by simp))]
      have hlen' : ∀ t ∈ rest,
          (getWS (setWS ws s.agent_id
            { status := AgentStatus.success,
              task_history := (getWS ws s.agent_id).task_history
                ++ [stepOutput reg ws₀ ctx s snapshot] }) t.agent_id).task_history.length
            = (getWS ws₀ t.agent_id).task_history.length := by
        intro t ht
        have hne : t.agent_id ≠ s.agent_id := by
          intro hEq
          exact hnd.1 (hEq ▸ List.mem_map_of_mem WorkflowStep.agent_id ht)
        rw [getWS_set_other ws s.agent_id _ t.agent_id hne]
        exact hlen t (by simp [ht])
      obtain ⟨ih1, ih2⟩ := ih (setWS ws s.agent_id _)
        (fun t ht => hgood t (by simp [ht])) hnd.2 hlen'
      constructor
      · simp only [List.map_cons]
        rw [← ih1]
      · intro a ha
        rw [List.map_cons, List.mem_cons] at ha
        push_neg at ha
        rw [ih2 a ha.2]
        exact getWS_set_other ws s.agent_id _ a ha.1

/-- Processing a wave of Results records them all: results extended in
wave order, completed ids appended. -/
theorem processWave_formula :
    ∀ (ready : List WorkflowStep) (out : WorkflowStep → AgentResult)
      (results : ResultsMap) (completed : List String),
    ((ready.map WorkflowStep.agent_id).Nodup) →
    (∀ s ∈ ready, dictGet results s.agent_id = none) →
    processWave (ready.map (fun s => (s, Except.ok (out s)))) results completed =
      Except.ok (results ++ ready.map (fun s => (s.agent_id, out s)),
                 completed ++ ready.map WorkflowStep.step_id) := by
  intro ready
  induction ready with
  | nil => intro out results completed _ _; simp [processWave]
  | cons s rest ih =>
      intro out results completed hnd hfree
      rw [List.map_cons, List.nodup_cons] at hnd
      simp only [List.map_cons]
      rw [processWave]
      rw [dictSet_append_of_none results s.agent_id (out s) (hfree s (by simp))]
      rw [ih out (results ++ [(s.agent_id, out s)]) (completed ++ [s.step_id])
        hnd.2
        (by
          intro t ht
          rw [dictGet_append, hfree t (by simp [ht])]
          have hne : t.agent_id ≠ s.agent_id := by
            intro hEq
            exact hnd.1 (hEq ▸ List.mem_map_of_mem WorkflowStep.agent_id ht)
          simp [dictGet, dictGet_cons, Ne.symm hne])]
      simp

/-- Under `goodStep`, the canonical Result echoes the step id. -/
theorem canonVal_task_id (reg : Registry) (ws₀ : WStates) (ctx : Ctx)
    (L : List WorkflowStep) (s : WorkflowStep) (hg : goodStep reg s) :
    (canonVal reg ws₀ ctx L s).task_id = s.step_id :=
  (stepOutput_props reg ws₀ ctx s _ hg).2

/-- The canonical Result, written against the canonical entries of the
steps declared earlier. -/
theorem canonVal_expand (reg : Registry) (ws₀ : WStates) (ctx : Ctx)
    (L : List WorkflowStep)
    (hndid : (L.map WorkflowStep.step_id).Nodup) (s : WorkflowStep) :
    canonVal reg ws₀ ctx L s =
      stepOutput reg ws₀ ctx s
        ((L.takeWhile (fun t => decide (t.step_id ≠ s.step_id))).map
          (fun t => (t.agent_id, canonVal reg ws₀ ctx L t))) := by
  conv_lhs => unfold canonVal
  rw [canonAux_take reg ws₀ ctx L _ _
    (List.takeWhile_append_dropWhile _ _).symm hndid]

/-- The parallel wavefront loop, run on `goodStep` steps with backward
dependencies and distinct step and agent ids, completes with a permutation
of the canonical entries. -/
theorem parallelLoop_good (reg : Registry) (ctx : Ctx) (ws₀ : WStates)
    (L : List WorkflowStep)
    (hndid : (L.map WorkflowStep.step_id).Nodup)
    (hndag : (L.map WorkflowStep.agent_id).Nodup)
    (hord : depsRespectOrder [] L)
    (hgood : ∀ s ∈ L, goodStep reg s) :
    ∀ (fuel : Nat) (M : List WorkflowStep) (ws : WStates),
    (∀ s ∈ M, s ∈ L) →
    ((M.map WorkflowStep.step_id).Nodup) →
    (∀ s ∈ L, s ∉ M → (getWS ws s.agent_id).task_history.length
        = (getWS ws₀ s.agent_id).task_history.length) →
    (L.length < fuel + M.length) →
    ∃ R ws', parallelLoop reg L ctx fuel (M.map WorkflowStep.step_id)
        (M.map (fun s => (s.agent_id, canonVal reg ws₀ ctx L s))) ws =
      (Except.ok R, ws') ∧
      R.Perm (L.map (fun s => (s.agent_id, canonVal reg ws₀ ctx L s))) := by
  intro fuel
  induction fuel with
  | zero =>
      intro M ws hML hndM _ hfuel
      exfalso
      have hMnd : M.Nodup := List.Nodup.of_map _ hndM
      have hsub : List.Subperm M L := List.subperm_of_subset hMnd (fun x hx => hML x hx)
      have := List.Subperm.length_le hsub
      omega
  | succ fuel ih =>
      intro M ws hML hndM hlen hfuel
      rw [parallelLoop]
      by_cases hdone : L.length ≤ (M.map WorkflowStep.step_id).length
      · simp only [hdone, if_true]
        refine ⟨_, ws, rfl, ?_⟩
        have hMnd : M.Nodup := List.Nodup.of_map _ hndM
        have hsub : List.Subperm M L := List.subperm_of_subset hMnd (fun x hx => hML x hx)
        have hperm : M.Perm L := hsub.perm_of_length_le (by simpa using hdone)
        exact hperm.map _
      · simp only [hdone, if_false]
        have hexu : ∃ s ∈ L, s.step_id ∉ M.map WorkflowStep.step_id := by
          by_contra hno
          push_neg at hno
          have hsub : List.Subperm (L.map WorkflowStep.step_id)
              (M.map WorkflowStep.step_id) :=
            List.subperm_of_subset hndid (by
              intro x hx
              obtain ⟨s, hs, rfl⟩ := List.mem_map.1 hx
              exact hno s hs)
          have hle := List.Subperm.length_le hsub
          simp only [List.length_map] at hle hdone
          omega
        obtain ⟨u, hu, huc, hud⟩ := exists_ready_step L []
          (M.map WorkflowStep.step_id) hord (by simp) hexu
        have hune : readySteps L (M.map WorkflowStep.step_id) ≠ [] := by
          intro hempty
          have hmem : u ∈ readySteps L (M.map WorkflowStep.step_id) :=
            (mem_readySteps _ _ u).2 ⟨hu, huc, hud⟩
          rw [hempty] at hmem
          cases hmem
        have hne : (readySteps L (M.map WorkflowStep.step_id)).isEmpty = false := by
          cases hr : readySteps L (M.map WorkflowStep.step_id) with
          | nil => exact absurd hr hune
          | cons a l => rfl
        simp only [hne, Bool.false_eq_true, if_false]
        -- facts about the ready wave
        have hreadyL : ∀ s ∈ readySteps L (M.map WorkflowStep.step_id), s ∈ L :=
          fun s hs => ((mem_readySteps _ _ s).1 hs).1
        have hreadyNC : ∀ s ∈ readySteps L (M.map WorkflowStep.step_id),
            s.step_id ∉ M.map WorkflowStep.step_id :=
          fun s hs => ((mem_readySteps _ _ s).1 hs).2.1
        have hreadyDep : ∀ s ∈ readySteps L (M.map WorkflowStep.step_id),
            ∀ d ∈ s.depends_on, d ∈ M.map WorkflowStep.step_id :=
          fun s hs => ((mem_readySteps _ _ s).1 hs).2.2
        have hreadyNM : ∀ s ∈ readySteps L (M.map WorkflowStep.step_id), s ∉ M := by
          intro s hs hsM
          exact hreadyNC s hs (List.mem_map_of_mem _ hsM)
        have hreadySub : List.Sublist (readySteps L (M.map WorkflowStep.step_id)) L :=
          List.filter_sublist L
        have hreadyIdsNd :
            ((readySteps L (M.map WorkflowStep.step_id)).map
              WorkflowStep.step_id).Nodup :=
          (hndid).sublist (hreadySub.map _)
        have hreadyAgNd :
            ((readySteps L (M.map WorkflowStep.step_id)).map
              WorkflowStep.agent_id).Nodup :=
          (hndag).sublist (hreadySub.map _)
        have hinjAg := List.inj_on_of_nodup_map hndag
        have hinjId := List.inj_on_of_nodup_map hndid
        -- the snapshot's entries echo their step ids
        have htaskM : ∀ T ∈ M,
            ((fun s => (s.agent_id, canonVal reg ws₀ ctx L s)) T).2.task_id
              = T.step_id := by
          intro T hT
          exact canonVal_task_id reg ws₀ ctx L T (hgood T (hML T hT))
        -- each ready step's output against the snapshot is canonical
        have hcanon : ∀ s ∈ readySteps L (M.map WorkflowStep.step_id),
            stepOutput reg ws₀ ctx s
              (M.map (fun t => (t.agent_id, canonVal reg ws₀ ctx L t)))
              = canonVal reg ws₀ ctx L s := by
          intro s hs
          have hPQ : L = L.takeWhile (fun t => decide (t.step_id ≠ s.step_id))
              ++ L.dropWhile (fun t => decide (t.step_id ≠ s.step_id)) :=
            (List.takeWhile_append_dropWhile _ _).symm
          have hPsub : List.Sublist
              (L.takeWhile (fun t => decide (t.step_id ≠ s.step_id))) L :=
            List.takeWhile_sublist _
          have htaskP : ∀ T ∈ L.takeWhile (fun t => decide (t.step_id ≠ s.step_id)),
              ((fun t => (t.agent_id, canonVal reg ws₀ ctx L t)) T).2.task_id
                = T.step_id := by
            intro T hT
            exact canonVal_task_id reg ws₀ ctx L T
              (hgood T (hPsub.subset hT))
          have hndP : ((L.takeWhile (fun t => decide (t.step_id ≠ s.step_id))).map
              WorkflowStep.step_id).Nodup :=
            hndid.sublist (hPsub.map _)
          rw [canonVal_expand reg ws₀ ctx L hndid s]
          apply stepOutput_congr
          intro d hd
          -- the unique completed step with id d
          obtain ⟨D, hDM, hDid⟩ : ∃ D ∈ M, D.step_id = d := by
            obtain ⟨D, hDM, hDid⟩ := List.mem_map.1 (hreadyDep s hs d hd)
            exact ⟨D, hDM, hDid⟩
          -- the unique earlier step with id d
          have hdep := depsRespectOrder_mem s L [] hord hndid (hreadyL s hs) d hd
          rcases hdep with hfalse | ⟨D', hD'P, hD'id⟩
          · cases hfalse
          have hDD' : D = D' := by
            apply hinjId (hML D hDM) (hPsub.subset hD'P)
            rw [hDid, hD'id]
          rw [filter_entries_singleton d M _ htaskM hndM D hDM hDid]
          rw [filter_entries_singleton d _ _ htaskP hndP D' hD'P hD'id]
          rw [hDD']
        -- snapshot keys are the completed agents: ready agents are fresh
        have hfresh : ∀ s ∈ readySteps L (M.map WorkflowStep.step_id),
            dictGet (M.map (fun t => (t.agent_id, canonVal reg ws₀ ctx L t)))
              s.agent_id = none := by
          intro s hs
          rw [dictGet_eq_none_iff]
          intro hmem
          rw [List.map_map] at hmem
          obtain ⟨T, hTM, hTag⟩ := List.mem_map.1 hmem
          have hsT : T = s := hinjAg (hML T hTM) (hreadyL s hs) hTag
          exact hreadyNM s hs (hsT ▸ hTM)
        -- run the wave
        obtain ⟨hrw1, hrw2⟩ := runWave_good reg ctx
          (M.map (fun t => (t.agent_id, canonVal reg ws₀ ctx L t))) ws₀
          (readySteps L (M.map WorkflowStep.step_id)) ws
          (fun s hs => hgood s (hreadyL s hs)) hreadyAgNd
          (fun s hs => hlen s (hreadyL s hs) (hreadyNM s hs))
        have houts : (runWave reg ctx
            (M.map (fun t => (t.agent_id, canonVal reg ws₀ ctx L t)))
            (readySteps L (M.map WorkflowStep.step_id)) ws).1 =
            (readySteps L (M.map WorkflowStep.step_id)).map
              (fun s => (s, Except.ok (canonVal reg ws₀ ctx L s))) := by
          rw [hrw1]
          exact List.map_congr_left (fun s hs => by rw [hcanon s hs])
        rw [houts]
        rw [processWave_formula (readySteps L (M.map WorkflowStep.step_id))
          (fun s => canonVal reg ws₀ ctx L s)
          (M.map (fun t => (t.agent_id, canonVal reg ws₀ ctx L t)))
          (M.map WorkflowStep.step_id) hreadyAgNd hfresh]
        have hres : (M.map (fun t => (t.agent_id, canonVal reg ws₀ ctx L t))) ++
            (readySteps L (M.map WorkflowStep.step_id)).map
              (fun s => (s.agent_id, canonVal reg ws₀ ctx L s)) =
            (M ++ readySteps L (M.map WorkflowStep.step_id)).map
              (fun t => (t.agent_id, canonVal reg ws₀ ctx L t)) :=
          (List.map_append _ _ _).symm
        have hcomp : (M.map WorkflowStep.step_id) ++
            (readySteps L (M.map WorkflowStep.step_id)).map WorkflowStep.step_id =
            (M ++ readySteps L (M.map WorkflowStep.step_id)).map
              WorkflowStep.step_id :=
          (List.map_append _ _ _).symm
        rw [hres, hcomp]
        apply ih (M ++ readySteps L (M.map WorkflowStep.step_id))
        · intro s hsmem
          rcases List.mem_append.1 hsmem with h | h
          · exact hML s h
          · exact hreadyL s h
        · rw [← hcomp]
          apply List.Nodup.append hndM hreadyIdsNd
          intro a haM haR
          obtain ⟨s, hsR, rfl⟩ := List.mem_map.1 haR
          exact hreadyNC s hsR haM
        · intro s hsL hsnot
          rw [List.mem_append] at hsnot
          push_neg at hsnot
          have hagnot : s.agent_id ∉
              (readySteps L (M.map WorkflowStep.step_id)).map
                WorkflowStep.agent_id := by
            intro hmem
            obtain ⟨T, hTR, hTag⟩ := List.mem_map.1 hmem
            have : T = s := hinjAg (hreadyL T hTR) hsL hTag
            exact hsnot.2 (this ▸ hTR)
          rw [hrw2 s.agent_id hagnot]
          exact hlen s hsL hsnot.1
        · have hpos : 0 < (readySteps L (M.map WorkflowStep.step_id)).length :=
            List.length_pos.2 hune
          rw [List.length_append]
          omega

/-- Running `_execute_parallel` under the mode-equivalence hypotheses: completes
with a permutation of the canonical entries. -/
theorem execute_parallel_good (reg : Registry) (wf : Workflow) (ctx : Ctx)
    (ws₀ : WStates)
    (hndid : (wf.steps.map WorkflowStep.step_id).Nodup)
    (hndag : (wf.steps.map WorkflowStep.agent_id).Nodup)
    (hord : depsRespectOrder [] wf.steps)
    (hgood : ∀ s ∈ wf.steps, goodStep reg s) :
    ∃ R ws', execute_parallel reg wf ctx ws₀ = (Except.ok R, ws') ∧
      R.Perm (wf.steps.map
        (fun s => (s.agent_id, canonVal reg ws₀ ctx wf.steps s))) := by
  unfold execute_parallel
  have h := parallelLoop_good reg ctx ws₀ wf.steps hndid hndag hord hgood
    (wf.steps.length + 1) [] ws₀ (by simp) (by simp)
    (fun s _ _ => rfl) (by simp)
  simpa using h

/-- Aggregation `overallConfidence` is invariant under permutation of the results. -/
theorem overallConfidence_perm (R₁ R₂ : ResultsMap) (h : R₁.Perm R₂) :
    overallConfidence R₁ = overallConfidence R₂ := by
  unfold overallConfidence
  have hf := (h.map Prod.snd).filterMap
    (fun r => if r.status = AgentStatus.success then some r.confidence else none)
  by_cases h1 : (R₁.map Prod.snd).filterMap
      (fun r => if r.status = AgentStatus.success then some r.confidence else none) = []
  · have h2 := ((h1 ▸ hf : List.Perm []
      ((R₂.map Prod.snd).filterMap
        (fun r => if r.status = AgentStatus.success then some r.confidence else none)))).symm.eq_nil
    simp only [h1, h2]
  · have h2 : (R₂.map Prod.snd).filterMap
        (fun r => if r.status = AgentStatus.success then some r.confidence else none) ≠ [] := by
      intro hnil
      exact h1 ((hnil ▸ hf : List.Perm _ []).eq_nil)
    have hie1 : ((R₁.map Prod.snd).filterMap
        (fun r => if r.status = AgentStatus.success then some r.confidence else none)).isEmpty = false := by
      rw [List.isEmpty_eq_false_iff_exists_mem]
      rcases List.exists_mem_of_ne_nil _ h1 with ⟨a, ha⟩
      exact ⟨a, ha⟩
    have hie2 : ((R₂.map Prod.snd).filterMap
        (fun r => if r.status = AgentStatus.success then some r.confidence else none)).isEmpty = false := by
      rw [List.isEmpty_eq_false_iff_exists_mem]
      rcases List.exists_mem_of_ne_nil _ h2 with ⟨a, ha⟩
      exact ⟨a, ha⟩
    simp only [hie1, hie2, Bool.false_eq_true, if_false]
    rw [hf.sum_eq, hf.length_eq]

/-- C10 amended: for every workflow with pairwise-distinct step ids AND
pairwise-distinct agent ids, whose declaration order respects its
dependencies (hence acyclic), and whose steps all succeed on the first
attempt with workers echoing the task id, parallel and sequential
execution complete normally with results maps that are permutations of
each other — in particular the same `overall_confidence`.  (Distinct agent
ids are necessary: the counterexample shows two steps sharing an agent id
make the modes disagree, because the later result overwrites the earlier
one under the shared key in a mode-dependent order.) -/
theorem mode_equivalence (reg : Registry) (wf : Workflow) (ctx : Ctx)
    (ws₀ : WStates)
    (hndid : (wf.steps.map WorkflowStep.step_id).Nodup)
    (hndag : (wf.steps.map WorkflowStep.agent_id).Nodup)
    (hord : depsRespectOrder [] wf.steps)
    (hgood : ∀ s ∈ wf.steps, goodStep reg s) :
    ∃ Rp wsP Rs wsS,
      execute_parallel reg wf ctx ws₀ = (Except.ok Rp, wsP) ∧
      execute_sequential reg wf ctx ws₀ = (Except.ok Rs, wsS) ∧
      Rp.Perm Rs ∧
      overallConfidence Rp = overallConfidence Rs := by
  obtain ⟨Rp, wsP, hP, hperm⟩ :=
    execute_parallel_good reg wf ctx ws₀ hndid hndag hord hgood
  obtain ⟨wsS, hS⟩ := execute_sequential_good reg wf ctx ws₀ hgood hndag
  have hRs : canonAux reg ws₀ ctx wf.steps [] =
      wf.steps.map (fun s => (s.agent_id, canonVal reg ws₀ ctx wf.steps s)) :=
    canonAux_full reg ws₀ ctx wf.steps hndid
  refine ⟨Rp, wsP, canonAux reg ws₀ ctx wf.steps [], wsS, hP, hS, ?_, ?_⟩
  · rw [hRs]
    exact hperm
  · apply overallConfidence_perm
    rw [hRs]
    exact hperm

/-- Witness for the amended C10 theorem on the concrete A→B workflow. -/
theorem mode_equivalence_witness :
    ∃ Rp wsP Rs wsS,
      execute_parallel (regC7 [("x", Val.num 1)]) wfC7 [] [] =
        (Except.ok Rp, wsP) ∧
      execute_sequential (regC7 [("x", Val.num 1)]) wfC7 [] [] =
        (Except.ok Rs, wsS) ∧
      Rp.Perm Rs ∧
      overallConfidence Rp = overallConfidence Rs := by
  apply mode_equivalence (regC7 [("x", Val.num 1)]) wfC7 [] []
  · simp [wfC7, stepA7, stepB7]
  · simp [wfC7, stepA7, stepB7]
  · simp [depsRespectOrder, wfC7, stepA7, stepB7]
  · intro s hs
    simp only [wfC7] at hs
    fin_cases hs
    · exact ⟨payloadWorker "a" [("x", Val.num 1)], rfl, fun _ => rfl,
        fun task n => ⟨{ agent_id := "a", task_id := task.task_id,
                         status := AgentStatus.success,
                         result := [("x", Val.num 1)], confidence := 1 },
                       1, rfl, rfl, rfl⟩⟩
    · exact ⟨echoWorker "b", rfl, fun _ => rfl,
        fun task n => ⟨{ agent_id := "b", task_id := task.task_id,
                         status := AgentStatus.success,
                         result := task.context, confidence := 1 },
                       1, rfl, rfl, rfl⟩⟩
